import Mathlib

/-!
Shallow embedding of the UML-1.0 repository (StarUML parsing, PlantUML
generation and rendering, FastAPI task server, and the reqrank Flask app),
together with theorems settling the frozen claims about it.
-/

namespace UMLRepo

/-! ### Python string helpers

Python `str.find`, slicing, `strip` and substring containment, modelled on
code-point (`Char`) lists, which matches Python's code-point indexing. -/

/-- Index of the first occurrence of `need` in `hay`, starting the count at `i`
(`none` when absent).  Models the scan performed by Python `str.find`. -/
def strFindAux (hay need : List Char) (i : Nat) : Option Nat :=
  match hay with
  | [] => if need = [] then some i else none
  | _ :: t => if need.isPrefixOf hay then some i else strFindAux t need (i + 1)

/-- Python `s.find(sub)`: code-point index of the first occurrence, `-1` when absent. -/
def pyFind (s sub : String) : Int :=
  match strFindAux s.data sub.data 0 with
  | some i => (i : Int)
  | none => -1

/-- Python `sub in s` membership test on strings. -/
def pyContains (s sub : String) : Bool :=
  (strFindAux s.data sub.data 0).isSome

/-- Python slice `s[a:b]` with full negative-index normalisation. -/
def pySlice (s : String) (a b : Int) : String :=
  let n : Int := s.data.length
  let norm : Int → Nat := fun x => (if x < 0 then max 0 (n + x) else min x n).toNat
  let a' := norm a
  let b' := norm b
  ⟨(s.data.drop a').take (b' - a')⟩

/-- Python `s.strip()` (whitespace from both ends). -/
def pyStrip (s : String) : String :=
  ⟨(s.data.dropWhile Char.isWhitespace).reverse.dropWhile Char.isWhitespace |>.reverse⟩

/-- Python `s.lower()` restricted to ASCII, as SQLite `LIKE` also is. -/
def pyLower (s : String) : String :=
  ⟨s.data.map Char.toLower⟩

/-- Fuel-driven body of `pyReplace`: replace non-overlapping occurrences of
`need` left to right.  The fuel is an upper bound on the scan length. -/
def pyReplaceAux (need repl : List Char) : Nat → List Char → List Char
  | 0, l => l
  | _ + 1, [] => []
  | fuel + 1, x :: t =>
      if need.isPrefixOf (x :: t) then
        repl ++ pyReplaceAux need repl fuel ((x :: t).drop need.length)
      else x :: pyReplaceAux need repl fuel t

/-- Python `s.replace(old, new)` for non-empty `old`. -/
def pyReplace (s old new : String) : String :=
  if old.data = [] then s
  else ⟨pyReplaceAux old.data new.data s.data.length s.data⟩

/-- Splitting a character list on a separator character (all pieces kept,
like Python `s.split(sep)`). -/
def splitOnCharAux (sep : Char) : List Char → List (List Char)
  | [] => [[]]
  | x :: t =>
      match splitOnCharAux sep t with
      | [] => if x = sep then [[], []] else [[x]]
      | h :: rest => if x = sep then [] :: h :: rest else (x :: h) :: rest

/-- SQLite `title LIKE '%q%'`: case-insensitive (ASCII) substring containment. -/
def sqlLike (title q : String) : Bool :=
  pyContains (pyLower title) (pyLower q)

/-! ### reqrank Flask app (src/reqrank/app.py) -/

/-- A row of the `Requirement` table.  Integer score columns are nullable in
the ORM, hence `Option Int`; `created_at` is abstracted to a `Nat` tick. -/
structure Requirement where
  id : Int
  title : String
  description : String
  category : String
  moscow : String
  business_value : Option Int
  time_criticality : Option Int
  risk_reduction : Option Int
  effort : Option Int
  risk_level : Option Int
  assignee : String
  status : String
  created_at : Nat
  updated_at : Nat
deriving Repr, DecidableEq

/-- Python `int(v or d)` for a nullable integer column: `None` and `0` both
fall back to the default `d`. -/
def pyOrInt (v : Option Int) (d : Int) : Int :=
  match v with
  | none => d
  | some x => if x = 0 then d else x

/-- The clamped divisor of the WSJF property: `max(1, int(self.effort or 1))`. -/
def Requirement.wsjfDivisor (r : Requirement) : Int :=
  max 1 (pyOrInt r.effort 1)

/-- The numerator of the WSJF property:
`int(business_value or 0) + int(time_criticality or 0) + int(risk_reduction or 0)`. -/
def Requirement.wsjfNumerator (r : Requirement) : Int :=
  pyOrInt r.business_value 0 + pyOrInt r.time_criticality 0 + pyOrInt r.risk_reduction 0

/-- The `Requirement.wsjf` property.  Python `/` on ints is exact real division
of the integer values, modelled in `ℚ`. -/
def Requirement.wsjf (r : Requirement) : ℚ :=
  (r.wsjfNumerator : ℚ) / (r.wsjfDivisor : ℚ)

/-- Query-string parameters of the `/requirements` list view. -/
structure ListParams where
  q : String
  status : String
  moscow : String
  sort : String
deriving Repr, DecidableEq

/-- The filter stage of `list_requirements` (and of `export_csv`): title LIKE,
then exact status and moscow matches, each applied only when non-empty. -/
def filterRequirements (p : ListParams) (reqs : List Requirement) : List Requirement :=
  let q := pyStrip p.q
  let items := reqs
  let items := if q ≠ "" then items.filter (fun r => sqlLike r.title q) else items
  let items := if p.status ≠ "" then items.filter (fun r => r.status = p.status) else items
  if p.moscow ≠ "" then items.filter (fun r => r.moscow = p.moscow) else items

/-- `sorted(items, key=lambda r: r.wsjf, reverse=True)`: a stable sort by
non-increasing WSJF value. -/
def sortByWsjf (items : List Requirement) : List Requirement :=
  items.mergeSort (fun a b => decide (Requirement.wsjf b ≤ Requirement.wsjf a))

/-- `sorted(items, key=lambda r: r.created_at, reverse=True)`. -/
def sortByCreated (items : List Requirement) : List Requirement :=
  items.mergeSort (fun a b => decide (b.created_at ≤ a.created_at))

/-- The Flask route `list_requirements`: filter, then dispatch on the `sort`
parameter; an unrecognised `sort` leaves the query order unchanged. -/
def list_requirements (p : ListParams) (reqs : List Requirement) : List Requirement :=
  let items := filterRequirements p reqs
  if p.sort = "wsjf" then sortByWsjf items
  else if p.sort = "created" then sortByCreated items
  else items

/-- The `/analysis` view's `items_sorted`: all requirements sorted by
non-increasing WSJF. -/
def analysis_items (reqs : List Requirement) : List Requirement :=
  sortByWsjf reqs

/-- Form data for the create/edit handlers, after Python `int()` conversion of
the numeric fields (`none` models an absent form field, which `f.get` defaults). -/
structure ReqForm where
  title : String
  description : Option String
  category : Option String
  moscow : Option String
  business_value : Option Int
  time_criticality : Option Int
  risk_reduction : Option Int
  effort : Option Int
  risk_level : Option Int
  assignee : Option String
  status : Option String
deriving Repr, DecidableEq

/-- The `Requirement` constructed by the POST branch of `new_requirement`. -/
def new_requirement_build (f : ReqForm) (newId : Int) (now : Nat) : Requirement :=
  { id := newId
    title := f.title
    description := f.description.getD ""
    category := f.category.getD "functional"
    moscow := f.moscow.getD "C"
    business_value := some (f.business_value.getD 5)
    time_criticality := some (f.time_criticality.getD 5)
    risk_reduction := some (f.risk_reduction.getD 5)
    effort := some (max 1 (f.effort.getD 5))
    risk_level := some (f.risk_level.getD 3)
    assignee := f.assignee.getD ""
    status := f.status.getD "todo"
    created_at := now
    updated_at := now }

/-- The in-place update performed by the POST branch of `edit_requirement`. -/
def edit_requirement_apply (f : ReqForm) (r : Requirement) (now : Nat) : Requirement :=
  { r with
    title := f.title
    description := f.description.getD ""
    category := f.category.getD "functional"
    moscow := f.moscow.getD "C"
    business_value := some (f.business_value.getD 5)
    time_criticality := some (f.time_criticality.getD 5)
    risk_reduction := some (f.risk_reduction.getD 5)
    effort := some (max 1 (f.effort.getD 5))
    risk_level := some (f.risk_level.getD 3)
    assignee := f.assignee.getD ""
    status := f.status.getD "todo"
    updated_at := now }

/-! ### FastAPI task server: JSONDatabase (src/fastapi_server.py)

The flat JSON file holds `{"tasks": {task_id: task_dict}}`.  We model the
file's contents as an insertion-ordered association list, exactly the shape a
Python `dict` round-tripped through JSON has. -/

/-- The nested `results` dict written on completion. -/
structure TaskResults where
  error_count : Int
  severity_level : String
  has_corrections : Bool
  plantuml_generated : Bool
deriving Repr, DecidableEq

/-- The pydantic `TaskModel`; enum fields are serialised as their string
values in the JSON file. -/
structure TaskModel where
  task_id : String
  task_type : String
  status : String
  input_file_path : String
  original_filename : String
  created_at : String
  updated_at : String
  progress : Int
  error_message : Option String
  error_analysis_result : Option String
  annotated_image_path : Option String
  corrected_uml_path : Option String
  corrected_image_path : Option String
  results : Option TaskResults
deriving Repr, DecidableEq

/-- Contents of the tasks JSON file: the `"tasks"` mapping, in insertion order. -/
def TaskDB := List (String × TaskModel)

instance : DecidableEq TaskDB := by
  unfold TaskDB
  infer_instance

/-- Python `d[k] = v` on a dict: overwrite in place if the key exists,
otherwise append. -/
def dictInsert (k : String) (v : TaskModel) : TaskDB → TaskDB
  | [] => [(k, v)]
  | (k', v') :: rest =>
      if k' = k then (k, v) :: rest else (k', v') :: dictInsert k v rest

/-- Python `d.get(k)` on the tasks dict. -/
def dictGet (k : String) : TaskDB → Option TaskModel
  | [] => none
  | (k', v') :: rest => if k' = k then some v' else dictGet k rest

/-- Python `k in d` on the tasks dict. -/
def dictMem (k : String) : TaskDB → Bool
  | [] => false
  | (k', _) :: rest => k' = k || dictMem k rest

/-- Python `del d[k]` (the `delete_task` path only reaches it when present). -/
def dictDel (k : String) : TaskDB → TaskDB
  | [] => []
  | (k', v') :: rest => if k' = k then rest else (k', v') :: dictDel k rest

/-- A partial update dict passed to `JSONDatabase.update_task`: `none` means
the key is absent from the update. -/
structure TaskPatch where
  status : Option String := none
  progress : Option Int := none
  error_message : Option (Option String) := none
  error_analysis_result : Option (Option String) := none
  annotated_image_path : Option (Option String) := none
  corrected_uml_path : Option (Option String) := none
  corrected_image_path : Option (Option String) := none
  results : Option (Option TaskResults) := none
deriving Repr, DecidableEq

/-- Python `stored.update(updates)`: each key present in the patch overwrites
the stored field. -/
def applyPatch (p : TaskPatch) (t : TaskModel) : TaskModel :=
  { t with
    status := p.status.getD t.status
    progress := p.progress.getD t.progress
    error_message := p.error_message.getD t.error_message
    error_analysis_result := p.error_analysis_result.getD t.error_analysis_result
    annotated_image_path := p.annotated_image_path.getD t.annotated_image_path
    corrected_uml_path := p.corrected_uml_path.getD t.corrected_uml_path
    corrected_image_path := p.corrected_image_path.getD t.corrected_image_path
    results := p.results.getD t.results }

/-- `JSONDatabase.create_task`: store the task's dict under its id and return
`True`. -/
def create_task (db : TaskDB) (t : TaskModel) : TaskDB × Bool :=
  (dictInsert t.task_id t db, true)

/-- `JSONDatabase.get_task`: look the id up, rebuilding the `TaskModel` from
the stored dict. -/
def get_task (db : TaskDB) (task_id : String) : Option TaskModel :=
  dictGet task_id db

/-- Merging an update dict and stamping the fresh `updated_at` timestamp. -/
def stampPatch (p : TaskPatch) (now : String) (t : TaskModel) : TaskModel :=
  { applyPatch p t with updated_at := now }

/-- `JSONDatabase.update_task`: merge the updates and stamp `updated_at` when
the id exists, returning whether it did.  `now` is the fresh UTC timestamp. -/
def update_task (db : TaskDB) (task_id : String) (p : TaskPatch) (now : String) :
    TaskDB × Bool :=
  if dictMem task_id db then
    (db.map (fun kv =>
      if kv.1 = task_id then (kv.1, stampPatch p now kv.2)
      else kv), true)
  else (db, false)

/-- `JSONDatabase.delete_task`: remove the entry when present, returning
whether it was. -/
def delete_task (db : TaskDB) (task_id : String) : TaskDB × Bool :=
  if dictMem task_id db then (dictDel task_id db, true) else (db, false)

/-- The database operations a client can issue, for trace-level statements. -/
inductive DBOp where
  | create (t : TaskModel)
  | update (task_id : String) (p : TaskPatch) (now : String)
  | delete (task_id : String)
deriving Repr

/-- Apply one operation to the stored file contents. -/
def applyDBOp (db : TaskDB) : DBOp → TaskDB
  | .create t => (create_task db t).1
  | .update task_id p now => (update_task db task_id p now).1
  | .delete task_id => (delete_task db task_id).1

/-- Run a sequence of operations from a given file state. -/
def runDBOps (db : TaskDB) (ops : List DBOp) : TaskDB :=
  ops.foldl applyDBOp db

/-- Whether a task id is live after a sequence of operations: a `create` for it
revives it, a `delete` of it kills it, updates never change liveness. -/
def liveAfter (alive : Bool) (task_id : String) (ops : List DBOp) : Bool :=
  ops.foldl (fun a op =>
    match op with
    | .create t => if t.task_id = task_id then true else a
    | .update _ _ _ => a
    | .delete i => if i = task_id then false else a) alive

/-! ### PlantUML code generation (src/main.py, UMLParser.generate_plantuml_code)

The `uml_structure` dict produced either by `_extract_uml_elements` or by the
vision model.  Keys that the code reads with `.get(key, default)` and that may
be absent are `Option`; list-valued keys default to the empty list. -/

/-- One entry of `uml_structure["elements"]`. -/
structure UmlElement where
  type : Option String := none
  name : Option String := none
  attributes : List String := []
  methods : List String := []
deriving Repr, DecidableEq

/-- One entry of `uml_structure["relationships"]`. -/
structure UmlRelationship where
  type : Option String := none
  source : Option String := none
  target : Option String := none
  multiplicity : Option String := none
  label : Option String := none
deriving Repr, DecidableEq

/-- The `uml_structure` dict. -/
structure UmlStructure where
  diagram_type : Option String := none
  elements : List UmlElement := []
  relationships : List UmlRelationship := []
  notes : List String := []
deriving Repr, DecidableEq

/-- The dict returned by `parse_staruml_file` / `parse_image_to_uml`. -/
structure UmlData where
  source_type : String := "unknown"
  file_path : String := ""
  uml_structure : UmlStructure := {}
deriving Repr, DecidableEq

/-- Python `str.title()` on ASCII: uppercase the first letter of every run of
letters, lowercase the rest. -/
def pyTitleAux : List Char → Bool → List Char
  | [], _ => []
  | c :: t, prevAlpha =>
      if c.isAlpha then
        (if prevAlpha then c.toLower else c.toUpper) :: pyTitleAux t true
      else c :: pyTitleAux t false

/-- Python `s.title()`. -/
def pyTitle (s : String) : String :=
  ⟨pyTitleAux s.data false⟩

/-- The header line of an element block: dispatch on `element.get("type", "class")`
with unknown types falling back to `class`. -/
def elementHeader (e : UmlElement) : String :=
  let t := e.type.getD "class"
  let n := e.name.getD "Unknown"
  if t = "class" then "class " ++ n ++ " \x7b"
  else if t = "interface" then "interface " ++ n ++ " \x7b"
  else if t = "enum" ∨ t = "enumeration" then "enum " ++ n ++ " \x7b"
  else "class " ++ n ++ " \x7b"

/-- The lines appended for one element: header, attributes, a `--` separator
only when the element has both attributes and methods, methods, `}`, blank. -/
def elementBlock (e : UmlElement) : List String :=
  [elementHeader e]
    ++ e.attributes.map (fun attr => "  " ++ attr)
    ++ (if e.attributes ≠ [] ∧ e.methods ≠ [] then ["  --"] else [])
    ++ e.methods.map (fun method => "  " ++ method)
    ++ ["\x7d", ""]

/-- Arrow chosen for a relationship type string. -/
def relArrow (t : String) : String :=
  if t = "inheritance" ∨ t = "generalization" then "--|>"
  else if t = "implementation" ∨ t = "realization" then "..|>"
  else if t = "association" then "-->"
  else if t = "dependency" then "..>"
  else "-->"

/-- The single line appended for one relationship, with optional label and
multiplicity suffixes. -/
def relLine (r : UmlRelationship) : String :=
  let source := r.source.getD ""
  let target := r.target.getD ""
  let rel_type := r.type.getD "association"
  let label := r.label.getD ""
  let multiplicity := r.multiplicity.getD ""
  let line := source ++ " " ++ relArrow rel_type ++ " " ++ target
  let line := if label ≠ "" then line ++ " : " ++ label else line
  if multiplicity ≠ "" then line ++ " [" ++ multiplicity ++ "]" else line

/-- The line appended for one note. -/
def noteLine (n : String) : String :=
  "note top : " ++ n

/-- The title line: `f"title {diagram_type.replace('_', ' ').title()}"`. -/
def titleLine (d : UmlData) : String :=
  "title " ++ pyTitle (pyReplace (d.uml_structure.diagram_type.getD "class_diagram") "_" " ")

/-- The list `plantuml_code` of lines built by `generate_plantuml_code` before
the final `"\n".join`. -/
def generate_plantuml_lines (uml_data : UmlData) : List String :=
  let s := uml_data.uml_structure
  let code := ["@startuml"]
  let code := code ++ [titleLine uml_data]
  let code := code ++ [""]
  let code := s.elements.foldl (fun acc e => acc ++ elementBlock e) code
  let code := s.relationships.foldl (fun acc r => acc ++ [relLine r]) code
  let code := s.notes.foldl (fun acc n => acc ++ [noteLine n]) code
  code ++ ["@enduml"]

/-- Python `"\n".join`. -/
def joinLines : List String → String
  | [] => ""
  | [l] => l
  | l :: rest => l ++ "\n" ++ joinLines rest

/-- `UMLParser.generate_plantuml_code`. -/
def generate_plantuml_code (uml_data : UmlData) : String :=
  joinLines (generate_plantuml_lines uml_data)

/-! ### parse_uml_file dispatch (src/main.py) -/

/-- Python exceptions that escape the modelled fragment. -/
inductive PyErr where
  | valueError (msg : String)
  | exception (msg : String)
deriving Repr, DecidableEq

/-- The last path component (`pathlib.PurePath.name`, POSIX flavour). -/
def pathName (p : String) : String :=
  match (splitOnCharAux '/' p.data).getLast? with
  | some n => ⟨n⟩
  | none => p

/-- Index of the last occurrence of character `c` (`Python str.rfind`),
`-1` when absent. -/
def pyRFindChar (s : String) (c : Char) : Int :=
  match (s.data.reverse.indexOf? c) with
  | some iRev => (s.data.length : Int) - 1 - (iRev : Int)
  | none => -1

/-- `pathlib.PurePath.suffix`: the final dotted extension, empty for names with
no dot, a leading dot only, or a trailing dot. -/
def pathSuffix (p : String) : String :=
  let name := pathName p
  let i := pyRFindChar name '.'
  if 0 < i ∧ i < (name.data.length : Int) - 1 then
    pySlice name i (name.data.length : Int)
  else ""

/-- The image extensions accepted by `parse_uml_file`. -/
def imageExts : List String :=
  [".png", ".jpg", ".jpeg", ".bmp", ".gif", ".tiff"]

/-- The `file_info` dict of a `parse_uml_file` result. -/
structure FileInfo where
  path : String
  extension : String
  source_type : String
deriving Repr, DecidableEq

/-- The dict returned by `parse_uml_file`. -/
structure ParseUmlResult where
  uml_data : UmlData
  plantuml_code : String
  file_info : FileInfo
deriving Repr, DecidableEq

/-- Builds the result dict of `parse_uml_file` from the parsed data. -/
def mkParseUmlResult (file_path file_ext : String) (d : UmlData) : ParseUmlResult :=
  { uml_data := d
    plantuml_code := generate_plantuml_code d
    file_info := { path := file_path, extension := file_ext, source_type := d.source_type } }

/-- `parse_uml_file`.  The `UMLParser` constructor runs first and raises
`ValueError` when the resolved API key is falsy; `parseStar` and `parseImg`
abstract `parse_staruml_file` and `parse_image_to_uml`, whose work is file and
network I/O. -/
def parse_uml_file (apiKey : Option String)
    (parseStar parseImg : String → Except PyErr UmlData)
    (file_path : String) : Except PyErr ParseUmlResult :=
  if apiKey.getD "" = "" then
    .error (.valueError "OpenAI API密钥未设置。请设置OPENAI_API_KEY环境变量或传入api_key参数")
  else
    let file_ext := pyLower (pathSuffix file_path)
    if file_ext = ".mdj" then
      (parseStar file_path).map (mkParseUmlResult file_path file_ext)
    else if file_ext ∈ imageExts then
      (parseImg file_path).map (mkParseUmlResult file_path file_ext)
    else
      .error (.valueError ("不支持的文件格式: " ++ file_ext
        ++ "。支持的格式: .mdj (StarUML), .png, .jpg, .jpeg, .bmp, .gif, .tiff"))

/-! ### Error-analysis XML parsing (src/main.py, UMLParser._parse_error_analysis_xml) -/

/-- Python `s.find(sub, start)`: search from code-point index `start` onwards,
returning an absolute index or `-1`. -/
def pyFindFrom (s sub : String) (start : Int) : Int :=
  let n : Int := s.data.length
  let st := (if start < 0 then max 0 (n + start) else min start n).toNat
  match strFindAux (s.data.drop st) sub.data st with
  | some i => (i : Int)
  | none => -1

/-- An `xml.etree.ElementTree` element: tag, text and child elements. -/
inductive XmlNode where
  | mk (tag : String) (text : Option String) (children : List XmlNode)

/-- The tag of an element. -/
def XmlNode.tag : XmlNode → String
  | .mk t _ _ => t

/-- The text of an element (`None` when it has no text). -/
def XmlNode.text : XmlNode → Option String
  | .mk _ tx _ => tx

/-- The child elements. -/
def XmlNode.children : XmlNode → List XmlNode
  | .mk _ _ cs => cs

/-- `element.find(tag)`: the first direct child with the tag. -/
def xmlFind (tag : String) : List XmlNode → Option XmlNode
  | [] => none
  | c :: rest => if c.tag = tag then some c else xmlFind tag rest

/-- `element.findall(tag)`: all direct children with the tag. -/
def xmlFindAll (tag : String) (cs : List XmlNode) : List XmlNode :=
  cs.filter (fun c => c.tag = tag)

/-- Python `x or d` for an optional string: `None` and `""` both yield `d`. -/
def pyOrStr (v : Option String) (d : String) : String :=
  match v with
  | none => d
  | some s => if s = "" then d else s

/-- The Python library primitives the parser delegates to: `ET.fromstring`
(whose failure is a `ParseError` carrying a message), `float()` and `int()`
on strings (whose failures are `ValueError`). -/
structure PyLibs where
  parseXml : String → Except String XmlNode
  pyFloat : String → Option ℚ
  pyInt : String → Option Int

/-- The `region` sub-dict of one parsed error. -/
structure ErrorRegion where
  description : Option String := none
  coordinates : Option (List (String × ℚ)) := none
deriving DecidableEq

/-- One entry of the parsed `errors` list; `none` models an absent key. -/
structure ErrorItem where
  region : Option ErrorRegion := none
  type : Option String := none
  element : Option String := none
  error_description : Option String := none
  suggestion : Option String := none
deriving DecidableEq

/-- The parsed `summary` dict; `none` models an absent key. -/
structure AnalysisSummary where
  total_errors : Option Int := none
  severity_level : Option String := none
deriving Repr, DecidableEq

/-- The dict returned by `_parse_error_analysis_xml`.  The keys `errors` and
`summary` are always present; `parse_error` and `raw_content` only on the
failure path. -/
structure AnalysisOut where
  errors : List ErrorItem
  summary : AnalysisSummary
  parse_error : Option String := none
  raw_content : Option String := none
deriving DecidableEq

/-- Extraction of the text between a code fence opener and the next bare
fence: `content.find(fence) + len(fence)`, then `content.find("```", start)`,
slice, strip. -/
def fenceExtract (fence : String) (content : String) : String :=
  let s := pyFind content fence + (fence.data.length : Int)
  let e := pyFindFrom content "```" s
  pyStrip (pySlice content s e)

/-- Extraction of a literal `<uml_analysis>...</uml_analysis>` span. -/
def umlSpanExtract (content : String) : String :=
  let s := pyFind content "<uml_analysis>"
  let e := pyFind content "</uml_analysis>" + ("</uml_analysis>".data.length : Int)
  pySlice content s e

/-- The XML-text extraction preamble of `_parse_error_analysis_xml`: a
```` ```xml ```` fence, else a bare ```` ``` ```` fence, else a
`<uml_analysis>` span, else the raw content. -/
def extractXmlText (content : String) : String :=
  if pyContains content "```xml" then fenceExtract "```xml" content
  else if pyContains content "```" then fenceExtract "```" content
  else if pyContains content "<uml_analysis>" then umlSpanExtract content
  else content

/-- One coordinate value: `float(coord_elem.text or 0)` with `ValueError`
mapped to `0.0`. -/
def coordValue (lib : PyLibs) (tx : Option String) : ℚ :=
  match tx with
  | none => 0
  | some s => if s = "" then 0 else (lib.pyFloat s).getD 0

/-- The `coordinates` dict: one entry per present `x1,y1,x2,y2` child, in that
fixed order. -/
def parseCoordinates (lib : PyLibs) (coords : XmlNode) : List (String × ℚ) :=
  ["x1", "y1", "x2", "y2"].foldl (fun acc c =>
    match xmlFind c coords.children with
    | some el => acc ++ [(c, coordValue lib el.text)]
    | none => acc) []

/-- One parsed `<error>` element. -/
def parseErrorElem (lib : PyLibs) (e : XmlNode) : ErrorItem :=
  { region :=
      (xmlFind "region" e.children).map (fun reg =>
        { description := (xmlFind "description" reg.children).map
            (fun d => pyOrStr d.text "")
          coordinates := (xmlFind "coordinates" reg.children).map
            (parseCoordinates lib) })
    type := (xmlFind "type" e.children).map (fun el => pyOrStr el.text "")
    element := (xmlFind "element" e.children).map (fun el => pyOrStr el.text "")
    error_description := (xmlFind "error_description" e.children).map
      (fun el => pyOrStr el.text "")
    suggestion := (xmlFind "suggestion" e.children).map (fun el => pyOrStr el.text "") }

/-- The parsed `errors` list of a successful parse. -/
def parsedErrors (lib : PyLibs) (root : XmlNode) : List ErrorItem :=
  match xmlFind "errors" root.children with
  | none => []
  | some errs => (xmlFindAll "error" errs.children).map (parseErrorElem lib)

/-- `int(total_errors_elem.text or 0)` with `ValueError` mapped to
`len(errors)`. -/
def totalErrorsValue (lib : PyLibs) (tx : Option String) (nerrs : Nat) : Int :=
  match tx with
  | none => 0
  | some s => if s = "" then 0 else (lib.pyInt s).getD (nerrs : Int)

/-- The parsed `summary` dict of a successful parse. -/
def parsedSummary (lib : PyLibs) (root : XmlNode) (nerrs : Nat) : AnalysisSummary :=
  match xmlFind "summary" root.children with
  | none => {}
  | some s =>
      { total_errors := (xmlFind "total_errors" s.children).map
          (fun el => totalErrorsValue lib el.text nerrs)
        severity_level := (xmlFind "severity_level" s.children).map
          (fun el => pyOrStr el.text "未知") }

/-- The dict built on the success path of `_parse_error_analysis_xml`. -/
def successOut (lib : PyLibs) (root : XmlNode) : AnalysisOut :=
  let errors := parsedErrors lib root
  { errors := errors
    summary := parsedSummary lib root errors.length }

/-- The dict returned by the `except ET.ParseError` path. -/
def parseFailOut (msg raw : String) : AnalysisOut :=
  { errors := []
    summary := { total_errors := some 0, severity_level := some "解析失败" }
    parse_error := some ("XML解析失败: " ++ msg)
    raw_content := some raw }

/-- `UMLParser._parse_error_analysis_xml`: extract, parse, collect; every
exception path of the Python code is caught inside and mapped to a fallback
dict, so the function is total. -/
def parse_error_analysis_xml (lib : PyLibs) (xml_content : String) : AnalysisOut :=
  let xml_text := extractXmlText xml_content
  match lib.parseXml xml_text with
  | .error msg => parseFailOut msg xml_content
  | .ok root => successOut lib root

/-! ### PlantUML rendering (src/main.py, UMLParser.generate_plantuml_image)

The filesystem is modelled as the set of existing regular-file paths, relative
to the working directory; the external jar and Java detection are oracles. -/

/-- The set of existing files, as a duplicate-free list of paths. -/
structure FSState where
  files : List String
deriving Repr, DecidableEq

/-- Creating (or overwriting) a file. -/
def fsAdd (p : String) (fs : FSState) : FSState :=
  ⟨if p ∈ fs.files then fs.files else fs.files ++ [p]⟩

/-- `os.unlink` / `Path.unlink`. -/
def fsRemove (p : String) (fs : FSState) : FSState :=
  ⟨fs.files.filter (fun q => q ≠ p)⟩

/-- `Path.exists`. -/
def fsExists (p : String) (fs : FSState) : Bool :=
  p ∈ fs.files

/-- Python `s.endswith(suffix)`. -/
def pyEndsWith (s suffix : String) : Bool :=
  suffix.data.isSuffixOf s.data

/-- Environment of one `generate_plantuml_image` call: working directory,
timestamp used for the default name, the temporary file's stem, and the
behaviour of the external tools. -/
structure RenderEnv where
  cwd : String
  timestamp : String
  tempDir : String
  tempStem : String
  jarExists : Bool
  detectedJava : Option String
  retcode : Int
  rendersPng : Bool
deriving Repr, DecidableEq

/-- The output file name after the defaulting and `.jpg`-appending steps. -/
def jpgOutputName (env : RenderEnv) (output_filename : Option String) : String :=
  let name := output_filename.getD ("plantuml_" ++ env.timestamp ++ ".jpg")
  if pyEndsWith (pyLower name) ".jpg" then name else name ++ ".jpg"

/-- `UMLParser.generate_plantuml_image`.  Success returns the absolute output
path and the final filesystem; failure returns the raised message together
with the filesystem after the `finally` cleanup ran. -/
def generate_plantuml_image (env : RenderEnv) (output_filename : Option String)
    (java_path : Option String) (fs : FSState) :
    Except (String × FSState) (String × FSState) :=
  let output_path := "jpg_output/" ++ jpgOutputName env output_filename
  let temp_puml := env.tempDir ++ "/" ++ env.tempStem ++ ".puml"
  let fs := fsAdd temp_puml fs
  if ¬ env.jarExists then
    .error ("生成 PlantUML 图像失败: 文件未找到: plantuml.jar 文件不存在，请确保文件在当前目录下",
      fsRemove temp_puml fs)
  else
    match java_path.orElse (fun _ => env.detectedJava) with
    | none =>
        .error ("Java 未找到。请安装 Java 或使用 java_path 参数指定 Java 路径",
          fsRemove temp_puml fs)
    | some _ =>
        if env.retcode ≠ 0 then
          .error ("生成 PlantUML 图像失败: PlantUML 执行失败", fsRemove temp_puml fs)
        else
          let generated_png := "jpg_output/" ++ env.tempStem ++ ".png"
          let fs := if env.rendersPng then fsAdd generated_png fs else fs
          if ¬ fsExists generated_png fs then
            .error ("生成 PlantUML 图像失败: PlantUML 图像生成失败：未找到输出文件",
              fsRemove temp_puml fs)
          else
            let fs := fsAdd output_path fs
            let fs := fsRemove generated_png fs
            let fs := fsRemove temp_puml fs
            .ok (env.cwd ++ "/" ++ output_path, fs)

/-! ### Task life cycle (src/fastapi_server.py, submit_task / TaskQueue)

Per-task view of the `db.update_task` calls made by `submit_task`,
`TaskQueue._process_task`, `_process_image_task` and `_process_staruml_task`.
Each submitted task id enters the queue exactly once, so a single worker runs
this sequence for it. -/

/-- The record created by `submit_task`: pydantic defaults give progress 0 and
empty result fields. -/
def submittedTask (task_id task_type input_file_path original_filename created : String) :
    TaskModel :=
  { task_id := task_id
    task_type := task_type
    status := "pending"
    input_file_path := input_file_path
    original_filename := original_filename
    created_at := created
    updated_at := created
    progress := 0
    error_message := none
    error_analysis_result := none
    annotated_image_path := none
    corrected_uml_path := none
    corrected_image_path := none
    results := none }

/-- Applying one `db.update_task` patch to the task's stored record. -/
def stepUpdate (t : TaskModel) (p : TaskPatch) (now : String) : TaskModel :=
  stampPatch p now t

/-- One `db.update_task` call on a task's record, as issued by the worker
code paths. -/
inductive TaskStep : TaskModel → TaskModel → Prop where
  | startProcessing (t : TaskModel) (now : String) (h : t.status = "pending") :
      TaskStep t (stepUpdate t { status := some "processing", progress := some 10 } now)
  | progressTick (t : TaskModel) (now : String) (p : Int)
      (h : t.status = "processing") (hp : p = 30 ∨ p = 50 ∨ p = 70 ∨ p = 85 ∨ p = 95) :
      TaskStep t (stepUpdate t { progress := some p } now)
  | completeImage (t : TaskModel) (now ear aip cup : String)
      (cip : Option String) (res : TaskResults) (h : t.status = "processing") :
      TaskStep t (stepUpdate t
        { status := some "completed", progress := some 100
          error_analysis_result := some (some ear)
          annotated_image_path := some (some aip)
          corrected_uml_path := some (some cup)
          corrected_image_path := some cip
          results := some (some res) } now)
  | completeStar (t : TaskModel) (now ear aip cup cip : String)
      (res : TaskResults) (h : t.status = "processing") :
      TaskStep t (stepUpdate t
        { status := some "completed", progress := some 100
          error_analysis_result := some (some ear)
          annotated_image_path := some (some aip)
          corrected_uml_path := some (some cup)
          corrected_image_path := some (some cip)
          results := some (some res) } now)
  | fail (t : TaskModel) (now msg : String) (h : t.status = "processing") :
      TaskStep t (stepUpdate t
        { status := some "failed", error_message := some (some msg) } now)

/-- Task records reachable from submission through worker steps. -/
inductive TaskReachable : TaskModel → Prop where
  | submitted (task_id task_type input_file_path original_filename created : String) :
      TaskReachable (submittedTask task_id task_type input_file_path original_filename created)
  | step {t t' : TaskModel} (h1 : TaskReachable t) (h2 : TaskStep t t') : TaskReachable t'

/-! ### StarUML JSON traversal (src/main.py, UMLParser._extract_uml_elements) -/

/-- A JSON value, as loaded by `json.load` from a `.mdj` file.  Numbers are
restricted to integers, which is all the traversal ever inspects. -/
inductive Json where
  | null
  | bool (b : Bool)
  | num (n : Int)
  | str (s : String)
  | arr (items : List Json)
  | obj (fields : List (String × Json))
deriving Repr

/-- Python dict lookup `d.get(k)` on a JSON object (first binding wins,
as Python dicts cannot repeat keys). -/
def jlookup (k : String) : List (String × Json) → Option Json
  | [] => none
  | (k', v) :: rest => if k' = k then some v else jlookup k rest

/-- Python truthiness of a JSON value. -/
def jsonTruthy : Json → Bool
  | .null => false
  | .bool b => b
  | .num n => n ≠ 0
  | .str s => s ≠ ""
  | .arr items => ¬ items.isEmpty
  | .obj fields => ¬ fields.isEmpty

mutual

/-- Python `repr` of a JSON value, used by `str` on containers. -/
def pyRepr : Json → String
  | .null => "None"
  | .bool b => if b then "True" else "False"
  | .num n => toString n
  | .str s => "\x27" ++ s ++ "\x27"
  | .arr items => "[" ++ pyReprItems items ++ "]"
  | .obj fields => "\x7b" ++ pyReprFields fields ++ "\x7d"

/-- Comma-separated reprs of list items. -/
def pyReprItems : List Json → String
  | [] => ""
  | [x] => pyRepr x
  | x :: rest => pyRepr x ++ ", " ++ pyReprItems rest

/-- Comma-separated reprs of dict entries. -/
def pyReprFields : List (String × Json) → String
  | [] => ""
  | [(k, v)] => "\x27" ++ k ++ "\x27: " ++ pyRepr v
  | (k, v) :: rest => "\x27" ++ k ++ "\x27: " ++ pyRepr v ++ ", " ++ pyReprFields rest

end

/-- Python `str()` of a JSON value, as interpolated by an f-string. -/
def pyStr : Json → String
  | .str s => s
  | j => pyRepr j

/-- The `_type` tags that produce an element entry. -/
def elemTags : List String := ["UMLClass", "UMLInterface", "UMLEnumeration"]

/-- The `_type` tags that produce a relationship entry. -/
def relTags : List String := ["UMLGeneralization", "UMLAssociation", "UMLDependency", "UMLRealization"]

/-- Whether a dict node's `_type` value is one of the element tags
(a non-string value never equals a Python string). -/
def isElemNode (fields : List (String × Json)) : Bool :=
  match jlookup "_type" fields with
  | some (.str t) => decide (t ∈ elemTags)
  | _ => false

/-- Whether a dict node's `_type` value is one of the relationship tags. -/
def isRelNode (fields : List (String × Json)) : Bool :=
  match jlookup "_type" fields with
  | some (.str t) => decide (t ∈ relTags)
  | _ => false

/-- `obj.get("_type", "").replace("UML", "").lower()` for a matched node. -/
def umlTypeName (fields : List (String × Json)) : String :=
  match jlookup "_type" fields with
  | some (.str t) => pyLower (pyReplace t "UML" "")
  | _ => ""

/-- One element entry appended to `elements`.  `name` keeps the raw JSON value
stored under the key, as the Python dict does. -/
structure ElemEntry where
  type : String
  name : Json
  attributes : List String
  methods : List String
  stereotypes : List String
deriving Repr

/-- One relationship entry appended to `relationships`. -/
structure RelEntry where
  type : String
  source : Json
  target : Json
  multiplicity : Json
  label : Json
deriving Repr

/-- Python iteration `for x in v`: lists yield items, strings yield one-char
strings, dicts yield their keys, and other values raise `TypeError`. -/
def pyIter : Json → Except String (List Json)
  | .arr items => .ok items
  | .str s => .ok (s.data.map (fun c => Json.str ⟨[c]⟩))
  | .obj fields => .ok (fields.map (fun kv => Json.str kv.1))
  | _ => .error "TypeError: object is not iterable"

/-- `f"{attr.get('visibility', '')} {attr.get('name', '')}"` plus the optional
`": {type}"` suffix, stripped. -/
def attrString (afs : List (String × Json)) : String :=
  let base := pyStr ((jlookup "visibility" afs).getD (.str ""))
    ++ " " ++ pyStr ((jlookup "name" afs).getD (.str ""))
  let base :=
    match jlookup "type" afs with
    | some ty => if jsonTruthy ty then base ++ ": " ++ pyStr ty else base
    | none => base
  pyStrip base

/-- `f"{op.get('visibility', '')} {op.get('name', '')}()"`, with a truthy
`returnType` replacing the trailing `()` by `": {returnType}"`, stripped. -/
def methodString (ofs : List (String × Json)) : String :=
  let base := pyStr ((jlookup "visibility" ofs).getD (.str ""))
    ++ " " ++ pyStr ((jlookup "name" ofs).getD (.str "")) ++ "()"
  let base :=
    match jlookup "returnType" ofs with
    | some rt => if jsonTruthy rt then
        (⟨base.data.dropLast.dropLast⟩ : String) ++ ": " ++ pyStr rt
      else base
    | none => base
  pyStrip base

/-- The strings collected from an `attributes` or `operations` value: dict
items with a truthy `name` contribute, everything else is skipped. -/
def memberStrings (render : List (String × Json) → String) (v : Json) :
    Except String (List String) :=
  match pyIter v with
  | .error e => .error e
  | .ok items =>
      .ok (items.foldl (fun acc it =>
        match it with
        | .obj afs =>
            if jsonTruthy ((jlookup "name" afs).getD .null) then acc ++ [render afs]
            else acc
        | _ => acc) [])

/-- The element entry built for a matched element node. -/
def elemEntryOf (fields : List (String × Json)) : Except String ElemEntry :=
  match (match jlookup "attributes" fields with
         | some v => memberStrings attrString v
         | none => .ok []) with
  | .error e => .error e
  | .ok attrs =>
      match (match jlookup "operations" fields with
             | some v => memberStrings methodString v
             | none => .ok []) with
      | .error e => .error e
      | .ok methods =>
          .ok { type := umlTypeName fields
                name := (jlookup "name" fields).getD (.str "Unknown")
                attributes := attrs
                methods := methods
                stereotypes := [] }

/-- `obj.get(key, {}).get("name", "Unknown")`: absent endpoints default to
`"Unknown"`, but a present non-dict value raises `AttributeError`. -/
def endpointName (key : String) (fields : List (String × Json)) : Except String Json :=
  match jlookup key fields with
  | none => .ok (.str "Unknown")
  | some (.obj efs) => .ok ((jlookup "name" efs).getD (.str "Unknown"))
  | some _ => .error "AttributeError: object has no attribute get"

/-- The relationship entry built for a matched relationship node. -/
def relEntryOf (fields : List (String × Json)) : Except String RelEntry :=
  match endpointName "source" fields with
  | .error e => .error e
  | .ok src =>
      match endpointName "target" fields with
      | .error e => .error e
      | .ok tgt =>
          .ok { type := umlTypeName fields
                source := src
                target := tgt
                multiplicity := (jlookup "multiplicity" fields).getD (.str "")
                label := (jlookup "name" fields).getD (.str "") }

/-- The entries a single dict node contributes on its own: one element entry,
or one relationship entry, or none. -/
def nodeEntries (fields : List (String × Json)) :
    Except String (List ElemEntry × List RelEntry) :=
  if isElemNode fields then
    match elemEntryOf fields with
    | .error e => .error e
    | .ok e => .ok ([e], [])
  else if isRelNode fields then
    match relEntryOf fields with
    | .error e => .error e
    | .ok r => .ok ([], [r])
  else .ok ([], [])

/-- The walk's descent keys: everything except `_type`, `_id` and `_parent`. -/
def descendKey (k : String) : Bool :=
  ¬ (k = "_type" ∨ k = "_id" ∨ k = "_parent")

mutual

/-- `traverse_elements`: a dict contributes its own entries first, then the
entries of its non-excluded values in key order; a list contributes the
entries of its items in order; leaves contribute nothing. -/
def traverseJson : Json → Except String (List ElemEntry × List RelEntry)
  | .obj fields =>
      match nodeEntries fields with
      | .error e => .error e
      | .ok own =>
          match traverseFields fields with
          | .error e => .error e
          | .ok rest => .ok (own.1 ++ rest.1, own.2 ++ rest.2)
  | .arr items => traverseItems items
  | _ => .ok ([], [])

/-- Walk the values of a dict in key order, skipping the excluded keys. -/
def traverseFields : List (String × Json) → Except String (List ElemEntry × List RelEntry)
  | [] => .ok ([], [])
  | (k, v) :: rest =>
      match (if descendKey k then traverseJson v else .ok ([], [])) with
      | .error e => .error e
      | .ok r1 =>
          match traverseFields rest with
          | .error e => .error e
          | .ok r2 => .ok (r1.1 ++ r2.1, r1.2 ++ r2.2)

/-- Walk the items of a list in order. -/
def traverseItems : List Json → Except String (List ElemEntry × List RelEntry)
  | [] => .ok ([], [])
  | item :: rest =>
      match traverseJson item with
      | .error e => .error e
      | .ok r1 =>
          match traverseItems rest with
          | .error e => .error e
          | .ok r2 => .ok (r1.1 ++ r2.1, r1.2 ++ r2.2)

end

/-- The final value of `_extract_uml_elements` on success. -/
structure UmlExtraction where
  diagram_type : String
  elements : List ElemEntry
  relationships : List RelEntry
  notes : List String
deriving Repr

/-- `UMLParser._extract_uml_elements`. -/
def extract_uml_elements (staruml_data : Json) : Except String UmlExtraction :=
  match traverseJson staruml_data with
  | .error e => .error e
  | .ok (es, rs) =>
      .ok { diagram_type := "class_diagram", elements := es, relationships := rs, notes := [] }

mutual

/-- Specification-side collector: the dict nodes the walk visits whose `_type`
matches an element tag and those whose `_type` matches a relationship tag, in
depth-first order, descending into every dict value except the keys `_type`,
`_id`, `_parent`, and into every list item. -/
def collectNodes : Json → List (List (String × Json)) × List (List (String × Json))
  | .obj fields =>
      let rest := collectNodesFields fields
      ((if isElemNode fields then [fields] else []) ++ rest.1,
       (if isRelNode fields then [fields] else []) ++ rest.2)
  | .arr items => collectNodesItems items
  | _ => ([], [])

/-- Collector over dict values in key order, skipping excluded keys. -/
def collectNodesFields : List (String × Json) →
    List (List (String × Json)) × List (List (String × Json))
  | [] => ([], [])
  | (k, v) :: rest =>
      let r1 := if descendKey k then collectNodes v else ([], [])
      let r2 := collectNodesFields rest
      (r1.1 ++ r2.1, r1.2 ++ r2.2)

/-- Collector over list items in order. -/
def collectNodesItems : List Json → List (List (String × Json)) × List (List (String × Json))
  | [] => ([], [])
  | item :: rest =>
      let r1 := collectNodes item
      let r2 := collectNodesItems rest
      (r1.1 ++ r2.1, r1.2 ++ r2.2)

end

/-! ### PlantUML generation over raw dicts (src/main.py, generate_plantuml_code)

`generate_plantuml_code` receives whatever dict the upstream parsers stored
(`parse_image_to_uml` keeps arbitrary `json.loads` output), so ill-typed
values raise `AttributeError`/`TypeError` at runtime.  This model works over
raw JSON values; the typed `UmlData` model above is its restriction to
well-typed inputs and is what `parse_uml_file` consumes. -/

/-- Python `d.get(k, [])` followed by `for x in ...`: absent keys iterate
nothing, present values iterate per `pyIter` (raising on non-iterables). -/
def iterKey (k : String) (d : List (String × Json)) : Except String (List Json) :=
  match jlookup k d with
  | some v => pyIter v
  | none => .ok []

/-- Left-to-right mapping that stops at the first raised exception, as a
Python `for` loop does. -/
def mapExceptList (f : α → Except String β) : List α → Except String (List β)
  | [] => .ok []
  | x :: t =>
      match f x with
      | .error e => .error e
      | .ok y =>
          match mapExceptList f t with
          | .error e => .error e
          | .ok ys => .ok (y :: ys)

/-- The title line: `diagram_type.replace("_", " ").title()` raises
`AttributeError` when the stored value is not a string. -/
def rawTitleLine (sfs : List (String × Json)) : Except String String :=
  match (jlookup "diagram_type" sfs).getD (.str "class_diagram") with
  | .str dt => .ok ("title " ++ pyTitle (pyReplace dt "_" " "))
  | _ => .error "AttributeError: object has no attribute replace"

/-- The header line of an element block over a raw element dict: dispatch on
`element.get("type", "class")`, any non-matching (or non-string) value
falling back to `class`. -/
def rawElementHeader (efs : List (String × Json)) : String :=
  let element_name := pyStr ((jlookup "name" efs).getD (.str "Unknown"))
  match (jlookup "type" efs).getD (.str "class") with
  | .str t =>
      if t = "class" then "class " ++ element_name ++ " \x7b"
      else if t = "interface" then "interface " ++ element_name ++ " \x7b"
      else if t = "enum" ∨ t = "enumeration" then "enum " ++ element_name ++ " \x7b"
      else "class " ++ element_name ++ " \x7b"
  | _ => "class " ++ element_name ++ " \x7b"

/-- `if element.get("attributes") and element.get("methods")`: the `--`
separator appears exactly when both raw values are truthy. -/
def rawSep (efs : List (String × Json)) : List String :=
  if jsonTruthy ((jlookup "attributes" efs).getD .null)
      && jsonTruthy ((jlookup "methods" efs).getD .null) then ["  --"] else []

/-- The lines appended for one raw element: a non-dict element raises
`AttributeError`, non-iterable `attributes`/`methods` raise `TypeError`. -/
def rawElementBlock (element : Json) : Except String (List String) :=
  match element with
  | .obj efs =>
      match iterKey "attributes" efs with
      | .error e => .error e
      | .ok attrItems =>
          match iterKey "methods" efs with
          | .error e => .error e
          | .ok methodItems =>
              .ok ([rawElementHeader efs]
                ++ attrItems.map (fun attr => "  " ++ pyStr attr)
                ++ rawSep efs
                ++ methodItems.map (fun method => "  " ++ pyStr method)
                ++ ["\x7d", ""])
  | _ => .error "AttributeError: object has no attribute get"

/-- Arrow for a raw `type` value: string values go through the `relArrow`
chain, any other value fails every comparison and falls to `-->`. -/
def rawArrowOf : Json → String
  | .str t => relArrow t
  | _ => "-->"

/-- The line appended for one raw relationship: a non-dict relationship
raises `AttributeError`; endpoint/label/multiplicity values stringify. -/
def rawRelLine (rel : Json) : Except String String :=
  match rel with
  | .obj rfs =>
      let source := (jlookup "source" rfs).getD (.str "")
      let target := (jlookup "target" rfs).getD (.str "")
      let rel_type := (jlookup "type" rfs).getD (.str "association")
      let label := (jlookup "label" rfs).getD (.str "")
      let multiplicity := (jlookup "multiplicity" rfs).getD (.str "")
      let line := pyStr source ++ " " ++ rawArrowOf rel_type ++ " " ++ pyStr target
      let line := if jsonTruthy label then line ++ " : " ++ pyStr label else line
      .ok (if jsonTruthy multiplicity then line ++ " [" ++ pyStr multiplicity ++ "]" else line)
  | _ => .error "AttributeError: object has no attribute get"

/-- `.get(...)` on a value that must be a dict: non-dicts raise
`AttributeError`. -/
def asObjFields : Json → Except String (List (String × Json))
  | .obj fs => .ok fs
  | _ => .error "AttributeError: object has no attribute get"

/-- `UMLParser.generate_plantuml_code` over the raw stored dict, with the
source's evaluation order: `uml_structure` access, title, elements loop,
relationships loop, notes loop, and the final join; the first raised
exception aborts the call. -/
def generate_plantuml_code_raw (uml_data : List (String × Json)) : Except String String :=
  (asObjFields ((jlookup "uml_structure" uml_data).getD (.obj []))).bind fun sfs =>
  (rawTitleLine sfs).bind fun title =>
  (iterKey "elements" sfs).bind fun elemItems =>
  (mapExceptList rawElementBlock elemItems).bind fun blocks =>
  (iterKey "relationships" sfs).bind fun relItems =>
  (mapExceptList rawRelLine relItems).bind fun relLines =>
  (iterKey "notes" sfs).map fun noteItems =>
    joinLines (["@startuml", title, ""] ++ blocks.flatten ++ relLines
      ++ noteItems.map (fun n => "note top : " ++ pyStr n) ++ ["@enduml"])

/-! ### Concrete sample inputs used by witness theorems -/

/-- The raw element dict of the sample PlantUML input. -/
def sampleElemJson : Json :=
  .obj [("type", .str "interface"), ("name", .str "I"),
    ("attributes", .arr [.str "+a"]), ("methods", .arr [.str "+m()"])]

/-- The raw relationship dict of the sample PlantUML input. -/
def sampleRelJson : Json :=
  .obj [("type", .str "generalization"), ("source", .str "A"),
    ("target", .str "B"), ("label", .str "lbl"), ("multiplicity", .str "1..*")]

/-- A well-formed raw `uml_data` dict with one element, one relationship and
one note. -/
def samplePlantumlDict : List (String × Json) :=
  [("uml_structure", .obj [
    ("diagram_type", .str "class_diagram"),
    ("elements", .arr [sampleElemJson]),
    ("relationships", .arr [sampleRelJson]),
    ("notes", .arr [.str "n1"])])]

/-- The text `generate_plantuml_code` produces for the sample dict. -/
def samplePlantumlCode : String :=
  "@startuml\ntitle Class Diagram\n\ninterface I \x7b\n  +a\n  --\n  +m()\n\x7d\n\nA --|> B : lbl [1..*]\nnote top : n1\n@enduml"

/-- A sample requirement used to instantiate hypotheses at concrete inputs. -/
def sampleReq (i : Int) (bv eff : Int) : Requirement :=
  { id := i, title := "t", description := "", category := "functional", moscow := "C"
    business_value := some bv, time_criticality := some 5, risk_reduction := some 5
    effort := some eff, risk_level := some 3, assignee := "", status := "todo"
    created_at := 0, updated_at := 0 }

/-- A sample stored task used to instantiate hypotheses at concrete inputs. -/
def sampleTask : TaskModel :=
  { task_id := "a", task_type := "image", status := "pending"
    input_file_path := "uploads/a/x.png", original_filename := "x.png"
    created_at := "t0", updated_at := "t0", progress := 0
    error_message := none, error_analysis_result := none
    annotated_image_path := none, corrected_uml_path := none
    corrected_image_path := none, results := none }

/-- A constant parse oracle used in witnesses. -/
def constUmlParse (d : UmlData) : String → Except PyErr UmlData :=
  fun _ => .ok d

/-- A parse oracle that always fails, used in witnesses. -/
def failLibs : PyLibs :=
  { parseXml := fun _ => .error "syntax error", pyFloat := fun _ => none
    pyInt := fun _ => none }

/-- A concrete rendering environment for the witness. -/
def sampleRenderEnv : RenderEnv :=
  { cwd := "/w", timestamp := "ts", tempDir := "/tmp", tempStem := "tmp123"
    jarExists := true, detectedJava := some "java", retcode := 0, rendersPng := true }

/-- A small StarUML-like tree: one class with an attribute and an operation,
owning one association. -/
def sampleMdj : Json :=
  .obj [("_type", .str "UMLClass"), ("name", .str "A"),
    ("attributes", .arr [.obj [("name", .str "x"), ("visibility", .str "+"),
      ("type", .str "int")]]),
    ("operations", .arr [.obj [("name", .str "go"), ("visibility", .str "#"),
      ("returnType", .str "void")]]),
    ("ownedElements", .arr [.obj [("_type", .str "UMLAssociation"),
      ("source", .obj [("name", .str "A")]), ("target", .obj [("name", .str "B")])]])]

/-- The element entry the walk produces for the sample class. -/
def sampleMdjElem : ElemEntry :=
  { type := "class", name := .str "A", attributes := ["+ x: int"]
    methods := ["# go: void"], stereotypes := [] }

/-- The relationship entry the walk produces for the sample association. -/
def sampleMdjRel : RelEntry :=
  { type := "association", source := .str "A", target := .str "B"
    multiplicity := .str "", label := .str "" }

/-- The full extraction result for the sample tree. -/
def sampleMdjOut : UmlExtraction :=
  { diagram_type := "class_diagram", elements := [sampleMdjElem]
    relationships := [sampleMdjRel], notes := [] }

/-! ## Theorems -/

/-! ### Sorting helpers (claims C2, C9) -/

/-- The stable descending WSJF sort is a permutation of its input. -/
theorem sortByWsjf_perm (l : List Requirement) : (sortByWsjf l).Perm l :=
  List.mergeSort_perm l _

/-- The stable descending WSJF sort is pairwise non-increasing. -/
theorem sortByWsjf_pairwise (l : List Requirement) :
    (sortByWsjf l).Pairwise (fun a b => Requirement.wsjf b ≤ Requirement.wsjf a) := by
  have h := @List.sorted_mergeSort Requirement
    (fun a b : Requirement => decide (Requirement.wsjf b ≤ Requirement.wsjf a))
    (fun a b c hab hbc => by
      simp only [decide_eq_true_eq] at *
      exact le_trans hbc hab)
    (fun a b => by
      simp only [Bool.or_eq_true, decide_eq_true_eq]
      exact le_total (Requirement.wsjf b) (Requirement.wsjf a))
    l
  exact h.imp (fun hab => of_decide_eq_true hab)

/-- `pyOrInt` with default `0` is plain `getD 0`. -/
theorem pyOrInt_zero (v : Option Int) : pyOrInt v 0 = v.getD 0 := by
  cases v with
  | none => rfl
  | some x =>
      by_cases hx : x = 0 <;> simp [pyOrInt, hx]

/-- The clamped divisor agrees with the spec-side `max 1 effort` reading. -/
theorem wsjfDivisor_eq_spec (r : Requirement) :
    r.wsjfDivisor = max 1 (r.effort.getD 0) := by
  unfold Requirement.wsjfDivisor pyOrInt
  cases r.effort with
  | none => rfl
  | some x =>
      by_cases hx : x = 0 <;> simp [hx]

/-- The WSJF property agrees with the spec-side formula. -/
theorem wsjf_eq_spec (r : Requirement) :
    r.wsjf = ((r.business_value.getD 0 + r.time_criticality.getD 0
        + r.risk_reduction.getD 0 : Int) : ℚ) / ((max 1 (r.effort.getD 0) : Int) : ℚ) := by
  unfold Requirement.wsjf Requirement.wsjfNumerator
  rw [pyOrInt_zero, pyOrInt_zero, pyOrInt_zero, wsjfDivisor_eq_spec]

/-- C2: with sort="wsjf" the list view returns a permutation of the filtered
requirements ordered by non-increasing derived WSJF value, where WSJF is the
score sum divided by max(1, effort); the analysis view orders all
requirements the same way. -/
theorem list_requirements_wsjf_order (p : ListParams) (reqs : List Requirement)
    (hsort : p.sort = "wsjf") :
    (list_requirements p reqs).Perm (filterRequirements p reqs) ∧
    (list_requirements p reqs).Pairwise
      (fun a b => Requirement.wsjf b ≤ Requirement.wsjf a) ∧
    (analysis_items reqs).Perm reqs ∧
    (analysis_items reqs).Pairwise
      (fun a b => Requirement.wsjf b ≤ Requirement.wsjf a) ∧
    (∀ r : Requirement, r.wsjf = ((r.business_value.getD 0 + r.time_criticality.getD 0
        + r.risk_reduction.getD 0 : Int) : ℚ) / ((max 1 (r.effort.getD 0) : Int) : ℚ)) := by
  have hlist : list_requirements p reqs = sortByWsjf (filterRequirements p reqs) := by
    unfold list_requirements
    rw [hsort]
    simp
  refine ⟨?_, ?_, ?_, ?_, wsjf_eq_spec⟩
  · rw [hlist]; exact sortByWsjf_perm _
  · rw [hlist]; exact sortByWsjf_pairwise _
  · exact sortByWsjf_perm reqs
  · exact sortByWsjf_pairwise reqs


/-- Witness for C2 at a concrete parameter set and store. -/
theorem list_requirements_wsjf_order_witness :
    (list_requirements ⟨"", "", "", "wsjf"⟩ [sampleReq 1 4 2, sampleReq 2 9 1]).Perm
      (filterRequirements ⟨"", "", "", "wsjf"⟩ [sampleReq 1 4 2, sampleReq 2 9 1]) ∧
    (list_requirements ⟨"", "", "", "wsjf"⟩ [sampleReq 1 4 2, sampleReq 2 9 1]).Pairwise
      (fun a b => Requirement.wsjf b ≤ Requirement.wsjf a) ∧
    (analysis_items [sampleReq 1 4 2, sampleReq 2 9 1]).Perm
      [sampleReq 1 4 2, sampleReq 2 9 1] ∧
    (analysis_items [sampleReq 1 4 2, sampleReq 2 9 1]).Pairwise
      (fun a b => Requirement.wsjf b ≤ Requirement.wsjf a) ∧
    (∀ r : Requirement, r.wsjf = ((r.business_value.getD 0 + r.time_criticality.getD 0
        + r.risk_reduction.getD 0 : Int) : ℚ) / ((max 1 (r.effort.getD 0) : Int) : ℚ)) :=
  list_requirements_wsjf_order ⟨"", "", "", "wsjf"⟩ [sampleReq 1 4 2, sampleReq 2 9 1] rfl

/-- C9: the WSJF divisor is clamped to at least 1 (so the division is by a
positive number for every requirement, `None` scores reading as 0), and both
form handlers clamp the stored effort to at least 1. -/
theorem wsjf_division_guarded :
    (∀ r : Requirement, 1 ≤ r.wsjfDivisor) ∧
    (∀ r : Requirement, 0 < ((r.wsjfDivisor : Int) : ℚ)) ∧
    (∀ r : Requirement,
      r.wsjf = (r.wsjfNumerator : ℚ) / ((r.wsjfDivisor : Int) : ℚ)) ∧
    (pyOrInt none 0 = 0) ∧ (∀ x : Int, pyOrInt (some x) 0 = x) ∧
    (∀ (f : ReqForm) (newId : Int) (now : Nat),
      (new_requirement_build f newId now).effort = some (max 1 (f.effort.getD 5)) ∧
      1 ≤ max 1 (f.effort.getD 5)) ∧
    (∀ (f : ReqForm) (r : Requirement) (now : Nat),
      (edit_requirement_apply f r now).effort = some (max 1 (f.effort.getD 5)) ∧
      1 ≤ max 1 (f.effort.getD 5)) := by
  have hdiv : ∀ r : Requirement, 1 ≤ r.wsjfDivisor := fun r => le_max_left _ _
  refine ⟨hdiv, fun r => ?_, fun r => rfl, rfl, fun x => by simp [pyOrInt_zero],
    fun f newId now => ⟨rfl, le_max_left _ _⟩, fun f r now => ⟨rfl, le_max_left _ _⟩⟩
  have h1 : (0 : Int) < r.wsjfDivisor := lt_of_lt_of_le Int.one_pos (hdiv r)
  exact_mod_cast h1

/-! ### JSON task store lemmas (claims C4, C8) -/

/-- Looking up the freshly inserted key returns the inserted value. -/
theorem dictGet_insert_self (k : String) (v : TaskModel) (db : TaskDB) :
    dictGet k (dictInsert k v db) = some v := by
  induction db with
  | nil => simp [dictInsert, dictGet]
  | cons kv rest ih =>
      obtain ⟨k0, v0⟩ := kv
      by_cases h : k0 = k <;> simp [dictInsert, dictGet, h, ih]

/-- Inserting one key does not change lookups of other keys. -/
theorem dictGet_insert_ne {k' k : String} (v : TaskModel) (db : TaskDB) (h : k' ≠ k) :
    dictGet k' (dictInsert k v db) = dictGet k' db := by
  have hks : ¬ k = k' := fun hk => h hk.symm
  induction db with
  | nil => simp [dictInsert, dictGet, hks]
  | cons kv rest ih =>
      obtain ⟨k0, v0⟩ := kv
      by_cases h0 : k0 = k
      · subst h0
        simp [dictInsert, dictGet, hks]
      · by_cases h1 : k0 = k' <;> simp [dictInsert, dictGet, h0, h1, h, ih]

/-- Membership in the dict is definedness of the lookup. -/
theorem dictMem_eq_isSome (k : String) (db : TaskDB) :
    dictMem k db = (dictGet k db).isSome := by
  induction db with
  | nil => rfl
  | cons kv rest ih =>
      obtain ⟨k0, v0⟩ := kv
      by_cases h : k0 = k <;> simp [dictMem, dictGet, h, ih]

/-- Membership in the dict is membership among the keys. -/
theorem dictMem_iff_mem_keys (k : String) (db : TaskDB) :
    dictMem k db = true ↔ k ∈ db.map Prod.fst := by
  induction db with
  | nil => simp [dictMem]
  | cons kv rest ih =>
      obtain ⟨k0, v0⟩ := kv
      simp only [dictMem, Bool.or_eq_true, decide_eq_true_eq, List.map_cons, List.mem_cons, ih]
      constructor
      · rintro (h | h)
        · exact Or.inl h.symm
        · exact Or.inr h
      · rintro (h | h)
        · exact Or.inl h.symm
        · exact Or.inr h

/-- A key that is not among the keys looks up to `none`. -/
theorem dictGet_eq_none_of_not_mem {k : String} {db : TaskDB}
    (h : ¬ k ∈ db.map Prod.fst) : dictGet k db = none := by
  induction db with
  | nil => rfl
  | cons kv rest ih =>
      obtain ⟨k0, v0⟩ := kv
      simp only [List.map_cons, List.mem_cons] at h
      push_neg at h
      have h0 : ¬ k0 = k := fun hk => h.1 hk.symm
      simp [dictGet, h0, ih h.2]

/-- The keys after an insert: unchanged on overwrite, appended when fresh. -/
theorem keys_dictInsert (k : String) (v : TaskModel) (db : TaskDB) :
    (dictInsert k v db).map Prod.fst =
      if dictMem k db then db.map Prod.fst else db.map Prod.fst ++ [k] := by
  induction db with
  | nil => simp [dictInsert, dictMem]
  | cons kv rest ih =>
      obtain ⟨k0, v0⟩ := kv
      by_cases h : k0 = k <;> simp [dictInsert, dictMem, h, ih] <;> split <;> simp

/-- Key uniqueness is preserved by inserts. -/
theorem nodup_keys_dictInsert {db : TaskDB} (k : String) (v : TaskModel)
    (h : (db.map Prod.fst).Nodup) : ((dictInsert k v db).map Prod.fst).Nodup := by
  rw [keys_dictInsert]
  split
  · exact h
  · next hmem =>
      have : ¬ k ∈ db.map Prod.fst := by
        intro hk
        exact hmem ((dictMem_iff_mem_keys k db).mpr hk)
      simp [List.nodup_append, h, this]

/-- Deleting a key yields a sublist of the dict. -/
theorem dictDel_sublist (k : String) (db : TaskDB) : (dictDel k db).Sublist db := by
  induction db with
  | nil => simp [dictDel]
  | cons kv rest ih =>
      obtain ⟨k0, v0⟩ := kv
      by_cases h : k0 = k
      · rw [dictDel, if_pos h]
        exact List.sublist_cons_self (k0, v0) rest
      · rw [dictDel, if_neg h]
        exact ih.cons_cons (k0, v0)

/-- Key uniqueness is preserved by deletes. -/
theorem nodup_keys_dictDel {db : TaskDB} (k : String)
    (h : (db.map Prod.fst).Nodup) : ((dictDel k db).map Prod.fst).Nodup :=
  ((dictDel_sublist k db).map Prod.fst).nodup h

/-- With unique keys, the deleted key no longer looks up. -/
theorem dictGet_dictDel_self {k : String} {db : TaskDB}
    (h : (db.map Prod.fst).Nodup) : dictGet k (dictDel k db) = none := by
  induction db with
  | nil => rfl
  | cons kv rest ih =>
      obtain ⟨k0, v0⟩ := kv
      simp only [List.map_cons, List.nodup_cons] at h
      by_cases hk : k0 = k
      · subst hk
        simp only [dictDel, if_pos rfl]
        exact dictGet_eq_none_of_not_mem h.1
      · simp [dictDel, dictGet, hk, ih h.2]

/-- Deleting one key leaves other lookups unchanged. -/
theorem dictGet_dictDel_ne {k' k : String} (db : TaskDB) (h : k' ≠ k) :
    dictGet k' (dictDel k db) = dictGet k' db := by
  induction db with
  | nil => rfl
  | cons kv rest ih =>
      obtain ⟨k0, v0⟩ := kv
      by_cases hk : k0 = k
      · subst hk
        have hc : ¬ k0 = k' := fun hc => h hc.symm
        simp [dictDel, dictGet, hc, ih]
      · by_cases h1 : k0 = k' <;> simp [dictDel, dictGet, hk, h1, h, ih]

/-- A present key is removed: the dict shrinks by exactly one entry. -/
theorem length_dictDel {k : String} {db : TaskDB} (h : dictMem k db = true) :
    (dictDel k db).length + 1 = db.length := by
  induction db with
  | nil => simp [dictMem] at h
  | cons kv rest ih =>
      obtain ⟨k0, v0⟩ := kv
      by_cases hk : k0 = k
      · simp [dictDel, hk]
      · simp only [dictMem, Bool.or_eq_true, decide_eq_true_eq] at h
        rcases h with h | h
        · exact absurd h hk
        · simp [dictDel, hk, ih h]

/-- Lookup through the per-entry update map of `update_task`. -/
theorem dictGet_update_map (db : TaskDB) (i k : String) (g : TaskModel → TaskModel) :
    dictGet k (db.map (fun kv => if kv.1 = i then (kv.1, g kv.2) else kv)) =
      if k = i then (dictGet k db).map g else dictGet k db := by
  induction db with
  | nil => by_cases h : k = i <;> simp [dictGet, h]
  | cons kv rest ih =>
      obtain ⟨k0, v0⟩ := kv
      simp only [List.map_cons]
      by_cases h0 : k0 = i
      · rw [if_pos h0]
        by_cases h1 : k0 = k
        · subst h1
          subst h0
          simp [dictGet, ih]
        · simp only [dictGet, if_neg h1]
          rw [ih]
      · rw [if_neg h0]
        by_cases h1 : k0 = k
        · subst h1
          have h2 : ¬ k0 = i := h0
          simp [dictGet, h2]
        · simp only [dictGet, if_neg h1]
          rw [ih]

/-- The keys are unchanged by the update map. -/
theorem keys_update_map (db : TaskDB) (i : String) (g : TaskModel → TaskModel) :
    (db.map (fun kv => if kv.1 = i then (kv.1, g kv.2) else kv)).map Prod.fst =
      db.map Prod.fst := by
  rw [List.map_map]
  congr 1
  funext kv
  by_cases h : kv.1 = i <;> simp [h]

/-- Liveness of a task id along any operation sequence, relative to any
starting file state with unique keys. -/
theorem isSome_get_runDBOps (ops : List DBOp) : ∀ (db : TaskDB) (id : String),
    (db.map Prod.fst).Nodup →
    (get_task (runDBOps db ops) id).isSome = liveAfter (get_task db id).isSome id ops := by
  induction ops with
  | nil => intro db id _; rfl
  | cons op rest ih =>
      intro db id hnod
      cases op with
      | create t =>
          have h2 : ((dictInsert t.task_id t db).map Prod.fst).Nodup :=
            nodup_keys_dictInsert _ _ hnod
          show (get_task (runDBOps (dictInsert t.task_id t db) rest) id).isSome
              = liveAfter (if t.task_id = id then true else (get_task db id).isSome) id rest
          rw [ih _ id h2]
          congr 1
          by_cases h : t.task_id = id
          · subst h
            rw [if_pos rfl]
            unfold get_task
            rw [dictGet_insert_self]
            rfl
          · rw [if_neg h]
            unfold get_task
            rw [dictGet_insert_ne _ _ (fun hc => h hc.symm)]
      | update i p now =>
          have hkeys : ((update_task db i p now).1.map Prod.fst) = db.map Prod.fst := by
            unfold update_task
            by_cases hc : dictMem i db = true
            · rw [if_pos hc]
              exact keys_update_map db i _
            · rw [if_neg hc]
          have h2 : ((update_task db i p now).1.map Prod.fst).Nodup := hkeys ▸ hnod
          show (get_task (runDBOps (update_task db i p now).1 rest) id).isSome
              = liveAfter (get_task db id).isSome id rest
          rw [ih _ id h2]
          congr 1
          unfold update_task get_task
          by_cases hc : dictMem i db = true
          · rw [if_pos hc]
            show (dictGet id (db.map _)).isSome = (dictGet id db).isSome
            rw [dictGet_update_map]
            by_cases h : id = i <;> simp [h]
          · rw [if_neg hc]
      | delete i =>
          by_cases hc : dictMem i db = true
          · have hsub : ((delete_task db i).1.map Prod.fst).Nodup := by
              unfold delete_task
              rw [if_pos hc]
              exact nodup_keys_dictDel i hnod
            show (get_task (runDBOps (delete_task db i).1 rest) id).isSome
                = liveAfter (if i = id then false else (get_task db id).isSome) id rest
            rw [ih _ id hsub]
            congr 1
            unfold delete_task get_task
            rw [if_pos hc]
            by_cases h : i = id
            · subst h
              rw [if_pos rfl, dictGet_dictDel_self hnod]
              rfl
            · rw [if_neg h, dictGet_dictDel_ne db (fun hcc => h hcc.symm)]
          · have hdb : (delete_task db i).1 = db := by
              unfold delete_task
              rw [if_neg hc]
            show (get_task (runDBOps (delete_task db i).1 rest) id).isSome
                = liveAfter (if i = id then false else (get_task db id).isSome) id rest
            rw [hdb, ih db id hnod]
            congr 1
            by_cases h : i = id
            · subst h
              rw [if_pos rfl]
              rw [Bool.not_eq_true] at hc
              unfold get_task
              rw [dictMem_eq_isSome] at hc
              exact hc
            · rw [if_neg h]

/-- C4: task state round-trips through the flat JSON file: `get_task` after
`create_task t` returns exactly `t`, and over any operation history from the
empty store, `get_task` returns `None` exactly when the id was never created
or its last create was followed by a delete. -/
theorem json_db_roundtrip :
    (∀ (db : TaskDB) (t : TaskModel),
      get_task (create_task db t).1 t.task_id = some t ∧ (create_task db t).2 = true) ∧
    (∀ (ops : List DBOp) (id : String),
      get_task (runDBOps [] ops) id = none ↔ liveAfter false id ops = false) := by
  refine ⟨fun db t => ⟨dictGet_insert_self _ _ _, rfl⟩, fun ops id => ?_⟩
  have h := isSome_get_runDBOps ops [] id (by simp)
  have h0 : (get_task ([] : TaskDB) id).isSome = false := rfl
  rw [h0] at h
  constructor
  · intro hnone
    rw [← h, hnone]
    rfl
  · intro hlive
    have h1 : (get_task (runDBOps [] ops) id).isSome = false := by rw [h, hlive]
    cases hx : get_task (runDBOps [] ops) id with
    | none => rfl
    | some v =>
        rw [hx] at h1
        simp at h1

/-- C8: `update_task` and `delete_task` return `False` and leave the store
unchanged for a missing id; for a present id, `update_task` merges the
updates, rewrites `updated_at`, and returns `True`, and `delete_task` removes
exactly that one entry and returns `True`. -/
theorem update_delete_atomic (db : TaskDB) (task_id : String) (p : TaskPatch)
    (now : String) (hnod : (db.map Prod.fst).Nodup) :
    (dictMem task_id db = false →
      update_task db task_id p now = (db, false) ∧
      delete_task db task_id = (db, false)) ∧
    (dictMem task_id db = true →
      (update_task db task_id p now).2 = true ∧
      (∀ t, dictGet task_id db = some t →
        dictGet task_id (update_task db task_id p now).1 =
          some (stampPatch p now t)) ∧
      (∀ k, k ≠ task_id →
        dictGet k (update_task db task_id p now).1 = dictGet k db) ∧
      (delete_task db task_id).2 = true ∧
      dictGet task_id (delete_task db task_id).1 = none ∧
      (∀ k, k ≠ task_id → dictGet k (delete_task db task_id).1 = dictGet k db) ∧
      (delete_task db task_id).1.length + 1 = db.length) := by
  constructor
  · intro hmiss
    have hc : ¬ dictMem task_id db = true := by rw [hmiss]; exact Bool.false_ne_true
    constructor
    · unfold update_task
      rw [if_neg hc]
    · unfold delete_task
      rw [if_neg hc]
  · intro hhit
    refine ⟨?_, ?_, ?_, ?_, ?_, ?_, ?_⟩
    · unfold update_task
      rw [if_pos hhit]
    · intro t ht
      unfold update_task
      rw [if_pos hhit]
      show dictGet task_id (db.map _) = _
      rw [dictGet_update_map, if_pos rfl, ht]
      rfl
    · intro k hk
      unfold update_task
      rw [if_pos hhit]
      show dictGet k (db.map _) = _
      rw [dictGet_update_map, if_neg hk]
    · unfold delete_task
      rw [if_pos hhit]
    · unfold delete_task
      rw [if_pos hhit]
      exact dictGet_dictDel_self hnod
    · intro k hk
      unfold delete_task
      rw [if_pos hhit]
      exact dictGet_dictDel_ne db hk
    · unfold delete_task
      rw [if_pos hhit]
      exact length_dictDel hhit


/-- Witness for C8 at a concrete one-entry store. -/
theorem update_delete_atomic_witness :
    (update_task [("b", sampleTask)] "a" {} "t1" = ([("b", sampleTask)], false)) ∧
    dictGet "a" (update_task [("a", sampleTask)] "a" { progress := some 10 } "t1").1 =
      some (stampPatch { progress := some 10 } "t1" sampleTask) ∧
    dictGet "a" (delete_task [("a", sampleTask)] "a").1 = none := by
  refine ⟨?_, ?_, ?_⟩
  · exact ((update_delete_atomic [("b", sampleTask)] "a" {} "t1" (by simp)).1 (by decide)).1
  · exact (((update_delete_atomic [("a", sampleTask)] "a" { progress := some 10 } "t1"
      (by simp)).2 (by decide)).2.1) sampleTask rfl
  · exact (((update_delete_atomic [("a", sampleTask)] "a" { progress := some 10 } "t1"
      (by simp)).2 (by decide)).2.2.2.2.1)

/-! ### PlantUML code generation lemmas (claim C7) -/

/-- Folding block-appends equals the initial segment followed by the joined
blocks. -/
theorem foldl_append_blocks {α β : Type} (f : α → List β) :
    ∀ (l : List α) (init : List β),
      l.foldl (fun acc x => acc ++ f x) init = init ++ (l.map f).flatten := by
  intro l
  induction l with
  | nil => intro init; simp
  | cons x t ih =>
      intro init
      simp only [List.foldl_cons, List.map_cons, List.flatten_cons, ih]
      rw [List.append_assoc]

/-- Folding single-line appends equals the initial segment followed by the
mapped lines. -/
theorem foldl_append_singles {α β : Type} (f : α → β) :
    ∀ (l : List α) (init : List β),
      l.foldl (fun acc x => acc ++ [f x]) init = init ++ l.map f := by
  intro l
  induction l with
  | nil => intro init; simp
  | cons x t ih =>
      intro init
      simp only [List.foldl_cons, List.map_cons, ih]
      simp

/-- The generated line list, as one structured decomposition: fixed preamble,
one block per element in order, one line per relationship in order, one line
per note, and the closing tag. -/
theorem generate_plantuml_lines_eq (d : UmlData) :
    generate_plantuml_lines d =
      ["@startuml", titleLine d, ""]
        ++ (d.uml_structure.elements.map elementBlock).flatten
        ++ d.uml_structure.relationships.map relLine
        ++ d.uml_structure.notes.map noteLine
        ++ ["@enduml"] := by
  dsimp only [generate_plantuml_lines]
  rw [foldl_append_blocks elementBlock, foldl_append_singles relLine,
    foldl_append_singles noteLine]
  simp [List.append_assoc]

/-- `joinLines` on a cons with a nonempty tail inserts one newline. -/
theorem joinLines_cons (a : String) (l : List String) (h : l ≠ []) :
    joinLines (a :: l) = a ++ "\n" ++ joinLines l := by
  cases l with
  | nil => exact absurd rfl h
  | cons b t => rfl

/-- Joining a list that ends with `x` produces a text ending in a newline
followed by `x`. -/
theorem joinLines_append_last (x : String) :
    ∀ (l : List String), l ≠ [] → ∃ pre, joinLines (l ++ [x]) = pre ++ ("\n" ++ x) := by
  intro l
  induction l with
  | nil => intro h; exact absurd rfl h
  | cons a t ih =>
      intro _
      cases t with
      | nil =>
          refine ⟨a, ?_⟩
          show a ++ "\n" ++ joinLines [x] = a ++ ("\n" ++ x)
          rw [String.append_assoc]
          rfl
      | cons b u =>
          obtain ⟨pre, hpre⟩ := ih (by simp)
          refine ⟨a ++ "\n" ++ pre, ?_⟩
          rw [show (a :: b :: u) ++ [x] = a :: ((b :: u) ++ [x]) from rfl,
            joinLines_cons a _ (by simp), hpre, ← String.append_assoc]

/-- A successful left-to-right map refines its input pointwise, in order. -/
theorem mapExceptList_forall2 {α β : Type} (f : α → Except String β) :
    ∀ (l : List α) (ys : List β), mapExceptList f l = .ok ys →
      List.Forall₂ (fun y x => f x = .ok y) ys l
  | [], ys, h => by
      simp only [mapExceptList] at h
      injection h with h1
      subst h1
      exact List.Forall₂.nil
  | x :: t, ys, h => by
      simp only [mapExceptList] at h
      cases hf : f x with
      | error e => rw [hf] at h; cases h
      | ok y =>
          rw [hf] at h
          cases hm : mapExceptList f t with
          | error e => rw [hm] at h; cases h
          | ok ys0 =>
              rw [hm] at h
              injection h with h1
              subst h1
              exact List.Forall₂.cons hf (mapExceptList_forall2 f t ys0 hm)

/-- A dict access that succeeded came from an object value. -/
theorem asObjFields_ok {v : Json} {fs : List (String × Json)}
    (h : asObjFields v = .ok fs) : v = Json.obj fs := by
  cases v with
  | obj fs0 =>
      injection h with h1
      rw [h1]
  | null => cases h
  | bool b => cases h
  | num n => cases h
  | str s => cases h
  | arr items => cases h

/-- Counterexample to C7 as stated: on the dict
`{"uml_structure": {"elements": [5]}}` the function raises `AttributeError`
(`5.get("type", "class")`) instead of returning a text, so the claim
quantified over any dict fails. -/
theorem generate_plantuml_code_raw_raises_on_nondict_element :
    generate_plantuml_code_raw
        [("uml_structure", Json.obj [("elements", Json.arr [Json.num 5])])] =
      .error "AttributeError: object has no attribute get" := rfl

/-- C7 (amended): whenever `generate_plantuml_code` returns without raising
on a raw uml_data dict, the text starts with `@startuml` and ends with
`@enduml` and decomposes into the title preamble, one element block per
iterated element in order, one relationship line per iterated relationship
in order, and the note lines; each block is header, attributes, a `--`
separator exactly when the element has both (truthy) attributes and methods,
methods, `}`; each relationship line uses `--|>` for
inheritance/generalization, `..|>` for implementation/realization, `..>` for
dependency and `-->` otherwise. -/
theorem generate_plantuml_code_raw_shape (uml_data : List (String × Json)) (code : String)
    (h : generate_plantuml_code_raw uml_data = .ok code) :
    (∃ sfs title elemItems blocks relItems relLines noteItems,
      (jlookup "uml_structure" uml_data).getD (.obj []) = Json.obj sfs ∧
      rawTitleLine sfs = .ok title ∧
      iterKey "elements" sfs = .ok elemItems ∧
      mapExceptList rawElementBlock elemItems = .ok blocks ∧
      List.Forall₂ (fun b e => rawElementBlock e = .ok b) blocks elemItems ∧
      iterKey "relationships" sfs = .ok relItems ∧
      mapExceptList rawRelLine relItems = .ok relLines ∧
      List.Forall₂ (fun ln r => rawRelLine r = .ok ln) relLines relItems ∧
      iterKey "notes" sfs = .ok noteItems ∧
      code = joinLines (["@startuml", title, ""] ++ blocks.flatten ++ relLines
        ++ noteItems.map (fun n => "note top : " ++ pyStr n) ++ ["@enduml"])) ∧
    (∃ rest, code = "@startuml" ++ ("\n" ++ rest)) ∧
    (∃ pre, code = pre ++ ("\n" ++ "@enduml")) ∧
    (∀ e b, rawElementBlock e = .ok b → ∃ efs attrItems methodItems,
      e = Json.obj efs ∧
      iterKey "attributes" efs = .ok attrItems ∧
      iterKey "methods" efs = .ok methodItems ∧
      b = [rawElementHeader efs] ++ attrItems.map (fun attr => "  " ++ pyStr attr)
        ++ rawSep efs ++ methodItems.map (fun method => "  " ++ pyStr method)
        ++ ["\x7d", ""]) ∧
    (∀ efs : List (String × Json),
      rawSep efs = if jsonTruthy ((jlookup "attributes" efs).getD .null)
          && jsonTruthy ((jlookup "methods" efs).getD .null) then ["  --"] else []) ∧
    (∀ r ln, rawRelLine r = .ok ln → ∃ rfs suffix, r = Json.obj rfs ∧
      ln = pyStr ((jlookup "source" rfs).getD (.str "")) ++ " "
        ++ rawArrowOf ((jlookup "type" rfs).getD (.str "association")) ++ " "
        ++ pyStr ((jlookup "target" rfs).getD (.str "")) ++ suffix) ∧
    relArrow "inheritance" = "--|>" ∧ relArrow "generalization" = "--|>" ∧
    relArrow "implementation" = "..|>" ∧ relArrow "realization" = "..|>" ∧
    relArrow "dependency" = "..>" ∧ relArrow "association" = "-->" ∧
    (∀ t : String, t ≠ "inheritance" → t ≠ "generalization" → t ≠ "implementation" →
      t ≠ "realization" → t ≠ "dependency" → relArrow t = "-->") ∧
    (∀ v : Json, (∀ s, v ≠ Json.str s) → rawArrowOf v = "-->") := by
  have hall : ∃ sfs title elemItems blocks relItems relLines noteItems,
      (jlookup "uml_structure" uml_data).getD (.obj []) = Json.obj sfs ∧
      rawTitleLine sfs = .ok title ∧
      iterKey "elements" sfs = .ok elemItems ∧
      mapExceptList rawElementBlock elemItems = .ok blocks ∧
      List.Forall₂ (fun b e => rawElementBlock e = .ok b) blocks elemItems ∧
      iterKey "relationships" sfs = .ok relItems ∧
      mapExceptList rawRelLine relItems = .ok relLines ∧
      List.Forall₂ (fun ln r => rawRelLine r = .ok ln) relLines relItems ∧
      iterKey "notes" sfs = .ok noteItems ∧
      code = joinLines (["@startuml", title, ""] ++ blocks.flatten ++ relLines
        ++ noteItems.map (fun n => "note top : " ++ pyStr n) ++ ["@enduml"]) := by
    dsimp only [generate_plantuml_code_raw] at h
    cases hS : asObjFields ((jlookup "uml_structure" uml_data).getD (.obj [])) with
    | error e0 => rw [hS] at h; cases h
    | ok sfs =>
        rw [hS] at h
        simp only [Except.bind] at h
        cases ht : rawTitleLine sfs with
        | error e0 => rw [ht] at h; cases h
        | ok title =>
            rw [ht] at h
            simp only [Except.bind] at h
            cases he : iterKey "elements" sfs with
            | error e0 => rw [he] at h; cases h
            | ok elemItems =>
                rw [he] at h
                simp only [Except.bind] at h
                cases hb : mapExceptList rawElementBlock elemItems with
                | error e0 => rw [hb] at h; cases h
                | ok blocks =>
                    rw [hb] at h
                    simp only [Except.bind] at h
                    cases hr : iterKey "relationships" sfs with
                    | error e0 => rw [hr] at h; cases h
                    | ok relItems =>
                        rw [hr] at h
                        simp only [Except.bind] at h
                        cases hrl : mapExceptList rawRelLine relItems with
                        | error e0 => rw [hrl] at h; cases h
                        | ok relLines =>
                            rw [hrl] at h
                            simp only [Except.bind] at h
                            cases hn : iterKey "notes" sfs with
                            | error e0 => rw [hn] at h; cases h
                            | ok noteItems =>
                                rw [hn] at h
                                simp only [Except.map] at h
                                injection h with h1
                                exact ⟨sfs, title, elemItems, blocks, relItems,
                                  relLines, noteItems, asObjFields_ok hS, ht, he, hb,
                                  mapExceptList_forall2 _ _ _ hb, hr, hrl,
                                  mapExceptList_forall2 _ _ _ hrl, hn, h1.symm⟩
  obtain ⟨sfs, title, elemItems, blocks, relItems, relLines, noteItems,
    hS, ht, he, hb, hbf, hr, hrl, hrf, hn, hcode⟩ := hall
  refine ⟨⟨sfs, title, elemItems, blocks, relItems, relLines, noteItems,
      hS, ht, he, hb, hbf, hr, hrl, hrf, hn, hcode⟩,
    ?hfirst, ?hlast, ?helem, fun efs => rfl, ?hrel,
    rfl, rfl, rfl, rfl, rfl, rfl, ?harrO, ?harrNS⟩
  case hfirst =>
    refine ⟨joinLines ((title :: "" :: (blocks.flatten ++ relLines
      ++ noteItems.map (fun n => "note top : " ++ pyStr n))) ++ ["@enduml"]), ?_⟩
    rw [hcode, show (["@startuml", title, ""] ++ blocks.flatten ++ relLines
        ++ noteItems.map (fun n => "note top : " ++ pyStr n) ++ ["@enduml"])
      = "@startuml" :: ((title :: "" :: (blocks.flatten ++ relLines
        ++ noteItems.map (fun n => "note top : " ++ pyStr n))) ++ ["@enduml"]) from by simp,
      joinLines_cons _ _ (by simp), String.append_assoc]
  case hlast =>
    rw [hcode, show (["@startuml", title, ""] ++ blocks.flatten ++ relLines
        ++ noteItems.map (fun n => "note top : " ++ pyStr n) ++ ["@enduml"])
      = ("@startuml" :: title :: "" :: (blocks.flatten ++ relLines
        ++ noteItems.map (fun n => "note top : " ++ pyStr n))) ++ ["@enduml"] from by simp]
    exact joinLines_append_last "@enduml" _ (by simp)
  case helem =>
    intro e b hblk
    cases e with
    | obj efs =>
        dsimp only [rawElementBlock] at hblk
        cases h1 : iterKey "attributes" efs with
        | error e0 => rw [h1] at hblk; cases hblk
        | ok attrItems =>
            rw [h1] at hblk
            cases h2 : iterKey "methods" efs with
            | error e0 => rw [h2] at hblk; cases hblk
            | ok methodItems =>
                rw [h2] at hblk
                injection hblk with hb1
                subst hb1
                exact ⟨efs, attrItems, methodItems, rfl, h1, h2, rfl⟩
    | null => cases hblk
    | bool bb => cases hblk
    | num n => cases hblk
    | str s => cases hblk
    | arr items => cases hblk
  case hrel =>
    intro r ln hln
    cases r with
    | obj rfs =>
        dsimp only [rawRelLine] at hln
        injection hln with hln1
        subst hln1
        refine ⟨rfs, ?_⟩
        by_cases hl : jsonTruthy ((jlookup "label" rfs).getD (.str "")) = true <;>
          by_cases hm : jsonTruthy ((jlookup "multiplicity" rfs).getD (.str "")) = true
        · exact ⟨" : " ++ pyStr ((jlookup "label" rfs).getD (.str "")) ++ " ["
            ++ pyStr ((jlookup "multiplicity" rfs).getD (.str "")) ++ "]",
            rfl, by simp [hl, hm, String.append_assoc]⟩
        · exact ⟨" : " ++ pyStr ((jlookup "label" rfs).getD (.str "")),
            rfl, by simp [hl, hm, String.append_assoc]⟩
        · exact ⟨" [" ++ pyStr ((jlookup "multiplicity" rfs).getD (.str "")) ++ "]",
            rfl, by simp [hl, hm, String.append_assoc]⟩
        · exact ⟨"", rfl, by simp [hl, hm, String.append_assoc]⟩
    | null => cases hln
    | bool bb => cases hln
    | num n => cases hln
    | str s => cases hln
    | arr items => cases hln
  case harrO =>
    intro t h1 h2 h3 h4 h5
    unfold relArrow
    rw [if_neg (by rintro (hh | hh) <;> [exact h1 hh; exact h2 hh]),
      if_neg (by rintro (hh | hh) <;> [exact h3 hh; exact h4 hh])]
    by_cases ha : t = "association"
    · rw [if_pos ha]
    · rw [if_neg ha, if_neg h5]
  case harrNS =>
    intro v hv
    cases v with
    | str s => exact absurd rfl (hv s)
    | null => rfl
    | bool b => rfl
    | num n => rfl
    | arr items => rfl
    | obj fs => rfl

/-- Witness for C7 at the sample raw dict: the success hypothesis and the
per-element, per-relationship and fallback-arrow hypotheses are discharged
at concrete inputs. -/
theorem generate_plantuml_code_raw_shape_witness :
    (∃ rest, samplePlantumlCode = "@startuml" ++ ("\n" ++ rest)) ∧
    (∃ pre, samplePlantumlCode = pre ++ ("\n" ++ "@enduml")) ∧
    (∃ efs attrItems methodItems, sampleElemJson = Json.obj efs ∧
      iterKey "attributes" efs = .ok attrItems ∧
      iterKey "methods" efs = .ok methodItems ∧
      ["interface I \x7b", "  +a", "  --", "  +m()", "\x7d", ""] =
        [rawElementHeader efs] ++ attrItems.map (fun attr => "  " ++ pyStr attr)
          ++ rawSep efs ++ methodItems.map (fun method => "  " ++ pyStr method)
          ++ ["\x7d", ""]) ∧
    (∃ rfs suffix, sampleRelJson = Json.obj rfs ∧
      "A --|> B : lbl [1..*]" = pyStr ((jlookup "source" rfs).getD (.str "")) ++ " "
        ++ rawArrowOf ((jlookup "type" rfs).getD (.str "association")) ++ " "
        ++ pyStr ((jlookup "target" rfs).getD (.str "")) ++ suffix) ∧
    relArrow "composition" = "-->" ∧
    rawArrowOf (Json.num 7) = "-->" := by
  have H := generate_plantuml_code_raw_shape samplePlantumlDict samplePlantumlCode rfl
  refine ⟨H.2.1, H.2.2.1, ?_, ?_, ?_, ?_⟩
  · exact H.2.2.2.1 sampleElemJson
      ["interface I \x7b", "  +a", "  --", "  +m()", "\x7d", ""] rfl
  · exact H.2.2.2.2.2.1 sampleRelJson "A --|> B : lbl [1..*]" rfl
  · exact H.2.2.2.2.2.2.2.2.2.2.2.2.1 "composition"
      (by decide) (by decide) (by decide) (by decide) (by decide)
  · exact H.2.2.2.2.2.2.2.2.2.2.2.2.2 (Json.num 7) (fun s hs => by cases hs)

/-! ### parse_uml_file dispatch (claim C10) -/

/-- C10: `parse_uml_file` dispatches on the lower-cased file extension:
`.mdj` goes to the StarUML parser, the six image extensions go to the image
parser, and every other extension raises `ValueError` without attempting any
parse; every successful result carries the parsed `uml_data` together with
the PlantUML code generated from it. -/
theorem parse_uml_file_dispatch (apiKey : Option String)
    (parseStar parseImg : String → Except PyErr UmlData) (file_path : String)
    (hkey : apiKey.getD "" ≠ "") :
    (pyLower (pathSuffix file_path) = ".mdj" →
      parse_uml_file apiKey parseStar parseImg file_path =
        (parseStar file_path).map (mkParseUmlResult file_path ".mdj")) ∧
    (∀ ext, ext ∈ imageExts → pyLower (pathSuffix file_path) = ext →
      parse_uml_file apiKey parseStar parseImg file_path =
        (parseImg file_path).map (mkParseUmlResult file_path ext)) ∧
    (pyLower (pathSuffix file_path) ≠ ".mdj" →
      pyLower (pathSuffix file_path) ∉ imageExts →
      parse_uml_file apiKey parseStar parseImg file_path =
        .error (.valueError ("不支持的文件格式: " ++ pyLower (pathSuffix file_path)
          ++ "。支持的格式: .mdj (StarUML), .png, .jpg, .jpeg, .bmp, .gif, .tiff"))) ∧
    (∀ r, parse_uml_file apiKey parseStar parseImg file_path = .ok r →
      r.plantuml_code = generate_plantuml_code r.uml_data) := by
  have hk : ¬ (apiKey.getD "" = "") := hkey
  refine ⟨?_, ?_, ?_, ?_⟩
  · intro hext
    dsimp only [parse_uml_file]
    rw [if_neg hk, hext, if_pos rfl]
  · intro ext hmem hext
    dsimp only [parse_uml_file]
    have hne : ext ≠ ".mdj" := by
      simp only [imageExts, List.mem_cons, List.not_mem_nil, or_false] at hmem
      rcases hmem with h | h | h | h | h | h <;> subst h <;> decide
    rw [if_neg hk, hext, if_neg hne, if_pos hmem]
  · intro h1 h2
    dsimp only [parse_uml_file]
    rw [if_neg hk, if_neg h1, if_neg h2]
  · intro r hr
    dsimp only [parse_uml_file] at hr
    rw [if_neg hk] at hr
    by_cases h1 : pyLower (pathSuffix file_path) = ".mdj"
    · rw [if_pos h1] at hr
      cases hstar : parseStar file_path with
      | error e =>
          rw [hstar] at hr
          cases hr
      | ok dta =>
          rw [hstar] at hr
          cases hr
          rfl
    · rw [if_neg h1] at hr
      by_cases h2 : pyLower (pathSuffix file_path) ∈ imageExts
      · rw [if_pos h2] at hr
        cases himg : parseImg file_path with
        | error e =>
            rw [himg] at hr
            cases hr
        | ok dta =>
            rw [himg] at hr
            cases hr
            rfl
      · rw [if_neg h2] at hr
        cases hr


/-- Witness for C10 at concrete paths covering all three dispatch branches. -/
theorem parse_uml_file_dispatch_witness :
    parse_uml_file (some "k") (constUmlParse {}) (constUmlParse {}) "m.mdj" =
      (constUmlParse {} "m.mdj").map (mkParseUmlResult "m.mdj" ".mdj") ∧
    parse_uml_file (some "k") (constUmlParse {}) (constUmlParse {}) "pic.PNG" =
      (constUmlParse {} "pic.PNG").map (mkParseUmlResult "pic.PNG" ".png") ∧
    parse_uml_file (some "k") (constUmlParse {}) (constUmlParse {}) "notes.txt" =
      .error (.valueError ("不支持的文件格式: " ++ pyLower (pathSuffix "notes.txt")
        ++ "。支持的格式: .mdj (StarUML), .png, .jpg, .jpeg, .bmp, .gif, .tiff")) ∧
    (mkParseUmlResult "m.mdj" ".mdj" ({} : UmlData)).plantuml_code =
      generate_plantuml_code (mkParseUmlResult "m.mdj" ".mdj" ({} : UmlData)).uml_data := by
  refine ⟨?_, ?_, ?_, ?_⟩
  · exact (parse_uml_file_dispatch (some "k") (constUmlParse {}) (constUmlParse {})
      "m.mdj" (by decide)).1 rfl
  · exact (parse_uml_file_dispatch (some "k") (constUmlParse {}) (constUmlParse {})
      "pic.PNG" (by decide)).2.1 ".png" (by decide) rfl
  · exact (parse_uml_file_dispatch (some "k") (constUmlParse {}) (constUmlParse {})
      "notes.txt" (by decide)).2.2.1 (by decide) (by decide)
  · exact (parse_uml_file_dispatch (some "k") (constUmlParse {}) (constUmlParse {})
      "m.mdj" (by decide)).2.2.2 (mkParseUmlResult "m.mdj" ".mdj" {}) rfl

/-! ### Error-analysis XML parsing (claim C3) -/

/-- C3: `_parse_error_analysis_xml` always returns a dict with the `errors`
list and the `summary` dict; the XML text is extracted from a ```xml fence,
else a bare ``` fence, else a literal `<uml_analysis>` span, else taken raw;
a parse failure yields `errors=[]`, `total_errors=0`, severity `解析失败`,
the `parse_error` message and the raw content. -/
theorem parse_error_analysis_total (lib : PyLibs) (content : String) :
    (∃ es s pe rc, parse_error_analysis_xml lib content =
       { errors := es, summary := s, parse_error := pe, raw_content := rc }) ∧
    (pyContains content "```xml" = true →
      extractXmlText content = fenceExtract "```xml" content) ∧
    (pyContains content "```xml" = false → pyContains content "```" = true →
      extractXmlText content = fenceExtract "```" content) ∧
    (pyContains content "```xml" = false → pyContains content "```" = false →
      pyContains content "<uml_analysis>" = true →
      extractXmlText content = umlSpanExtract content) ∧
    (pyContains content "```xml" = false → pyContains content "```" = false →
      pyContains content "<uml_analysis>" = false →
      extractXmlText content = content) ∧
    (∀ msg, lib.parseXml (extractXmlText content) = .error msg →
      parse_error_analysis_xml lib content =
        { errors := [],
          summary := { total_errors := some 0, severity_level := some "解析失败" },
          parse_error := some ("XML解析失败: " ++ msg),
          raw_content := some content }) ∧
    (∀ root, lib.parseXml (extractXmlText content) = .ok root →
      parse_error_analysis_xml lib content =
        { errors := parsedErrors lib root,
          summary := parsedSummary lib root (parsedErrors lib root).length,
          parse_error := none, raw_content := none }) := by
  refine ⟨?_, ?_, ?_, ?_, ?_, ?_, ?_⟩
  · exact ⟨_, _, _, _, rfl⟩
  · intro h1
    unfold extractXmlText
    rw [if_pos h1]
  · intro h1 h2
    unfold extractXmlText
    rw [if_neg (by rw [h1]; exact Bool.false_ne_true), if_pos h2]
  · intro h1 h2 h3
    unfold extractXmlText
    rw [if_neg (by rw [h1]; exact Bool.false_ne_true),
      if_neg (by rw [h2]; exact Bool.false_ne_true), if_pos h3]
  · intro h1 h2 h3
    unfold extractXmlText
    rw [if_neg (by rw [h1]; exact Bool.false_ne_true),
      if_neg (by rw [h2]; exact Bool.false_ne_true),
      if_neg (by rw [h3]; exact Bool.false_ne_true)]
  · intro msg h
    dsimp only [parse_error_analysis_xml]
    rw [h]
    rfl
  · intro root h
    dsimp only [parse_error_analysis_xml]
    rw [h]
    rfl


/-- Witness for C3 at concrete contents for the fence and failure paths. -/
theorem parse_error_analysis_total_witness :
    extractXmlText "a```xml<x/>```b" = fenceExtract "```xml" "a```xml<x/>```b" ∧
    extractXmlText "a``` <x/> ```b" = fenceExtract "```" "a``` <x/> ```b" ∧
    extractXmlText "see <uml_analysis></uml_analysis>." =
      umlSpanExtract "see <uml_analysis></uml_analysis>." ∧
    extractXmlText "plain" = "plain" ∧
    parse_error_analysis_xml failLibs "plain" =
      { errors := []
        summary := { total_errors := some 0, severity_level := some "解析失败" }
        parse_error := some ("XML解析失败: " ++ "syntax error")
        raw_content := some "plain" } :=
  ⟨(parse_error_analysis_total failLibs "a```xml<x/>```b").2.1 (by decide),
   (parse_error_analysis_total failLibs "a``` <x/> ```b").2.2.1 (by decide) (by decide),
   (parse_error_analysis_total failLibs "see <uml_analysis></uml_analysis>.").2.2.2.1
     (by decide) (by decide) (by decide),
   (parse_error_analysis_total failLibs "plain").2.2.2.2.1
     (by decide) (by decide) (by decide),
   (parse_error_analysis_total failLibs "plain").2.2.2.2.2.1 "syntax error" rfl⟩

/-! ### Task life cycle invariant (claim C6) -/

/-- C6: a submitted task starts pending with progress 0; every reachable task
record's status is pending, processing, completed or failed; completed
implies progress 100 with the error-analysis, annotated-image and
corrected-UML result paths (and the results dict) populated; failed implies
an error message is set. -/
theorem task_status_invariant :
    (∀ task_id task_type input_file_path original_filename created,
      (submittedTask task_id task_type input_file_path original_filename created).status
        = "pending" ∧
      (submittedTask task_id task_type input_file_path original_filename created).progress
        = 0) ∧
    (∀ t, TaskReachable t →
      (t.status = "pending" ∨ t.status = "processing" ∨ t.status = "completed" ∨
        t.status = "failed") ∧
      (t.status = "pending" → t.progress = 0) ∧
      (t.status = "completed" → t.progress = 100 ∧ t.error_analysis_result.isSome ∧
        t.annotated_image_path.isSome ∧ t.corrected_uml_path.isSome ∧
        t.results.isSome) ∧
      (t.status = "failed" → t.error_message.isSome)) := by
  refine ⟨fun _ _ _ _ _ => ⟨rfl, rfl⟩, fun t h => ?_⟩
  induction h with
  | submitted a b c d e =>
      exact ⟨Or.inl rfl, fun _ => rfl,
        fun hc => absurd hc (show ("pending" : String) ≠ "completed" by decide),
        fun hf => absurd hf (show ("pending" : String) ≠ "failed" by decide)⟩
  | step h1 h2 ih =>
      cases h2 with
      | startProcessing now hp =>
          exact ⟨Or.inr (Or.inl rfl),
            fun hc => absurd hc (show ("processing" : String) ≠ "pending" by decide),
            fun hc => absurd hc (show ("processing" : String) ≠ "completed" by decide),
            fun hc => absurd hc (show ("processing" : String) ≠ "failed" by decide)⟩
      | progressTick now p hp hpv =>
          exact ⟨Or.inr (Or.inl hp),
            fun hc => absurd (hp.symm.trans hc)
              (show ("processing" : String) ≠ "pending" by decide),
            fun hc => absurd (hp.symm.trans hc)
              (show ("processing" : String) ≠ "completed" by decide),
            fun hc => absurd (hp.symm.trans hc)
              (show ("processing" : String) ≠ "failed" by decide)⟩
      | completeImage now ear aip cup cip res hp =>
          exact ⟨Or.inr (Or.inr (Or.inl rfl)),
            fun hc => absurd hc (show ("completed" : String) ≠ "pending" by decide),
            fun _ => ⟨rfl, rfl, rfl, rfl, rfl⟩,
            fun hc => absurd hc (show ("completed" : String) ≠ "failed" by decide)⟩
      | completeStar now ear aip cup cip res hp =>
          exact ⟨Or.inr (Or.inr (Or.inl rfl)),
            fun hc => absurd hc (show ("completed" : String) ≠ "pending" by decide),
            fun _ => ⟨rfl, rfl, rfl, rfl, rfl⟩,
            fun hc => absurd hc (show ("completed" : String) ≠ "failed" by decide)⟩
      | fail now msg hp =>
          exact ⟨Or.inr (Or.inr (Or.inr rfl)),
            fun hc => absurd hc (show ("failed" : String) ≠ "pending" by decide),
            fun hc => absurd hc (show ("failed" : String) ≠ "completed" by decide),
            fun _ => rfl⟩

/-- Witness for C6 at a concrete submitted task. -/
theorem task_status_invariant_witness :
    (submittedTask "i" "image" "uploads/i/x.png" "x.png" "t0").progress = 0 ∧
    ((submittedTask "i" "image" "uploads/i/x.png" "x.png" "t0").status = "pending" ∨
      (submittedTask "i" "image" "uploads/i/x.png" "x.png" "t0").status = "processing" ∨
      (submittedTask "i" "image" "uploads/i/x.png" "x.png" "t0").status = "completed" ∨
      (submittedTask "i" "image" "uploads/i/x.png" "x.png" "t0").status = "failed") :=
  ⟨(task_status_invariant.1 "i" "image" "uploads/i/x.png" "x.png" "t0").2,
   (task_status_invariant.2 _
     (TaskReachable.submitted "i" "image" "uploads/i/x.png" "x.png" "t0")).1⟩

/-! ### Rendering pipeline lemmas (claim C5) -/

/-- ASCII lowering distributes over append. -/
theorem pyLower_append (a b : String) : pyLower (a ++ b) = pyLower a ++ pyLower b := by
  apply String.ext
  show (a ++ b).data.map Char.toLower = ((pyLower a) ++ (pyLower b)).data
  rw [String.data_append, String.data_append, List.map_append]
  rfl

/-- A freshly created file exists. -/
theorem fsExists_fsAdd_self (p : String) (fs : FSState) :
    fsExists p (fsAdd p fs) = true := by
  unfold fsExists fsAdd
  split
  · next h => simpa using h
  · simp

/-- Removing a file removes it. -/
theorem fsExists_fsRemove_self (p : String) (fs : FSState) :
    fsExists p (fsRemove p fs) = false := by
  unfold fsExists fsRemove
  simp [List.mem_filter]

/-- Removing one file leaves others untouched. -/
theorem fsExists_fsRemove_ne {p q : String} (fs : FSState) (h : p ≠ q) :
    fsExists p (fsRemove q fs) = fsExists p fs := by
  unfold fsExists fsRemove
  simp [List.mem_filter, h]

/-- Two suffixes of the same list with equal lengths coincide. -/
theorem suffix_eq_of_length {l s1 s2 : List Char} (h1 : s1 <:+ l) (h2 : s2 <:+ l)
    (hlen : s1.length = s2.length) : s1 = s2 := by
  obtain ⟨t1, ht1⟩ := h1
  obtain ⟨t2, ht2⟩ := h2
  exact (List.append_inj' (ht1.trans ht2.symm) hlen).2

/-- Strings whose lowered forms end in distinct equal-length tails differ. -/
theorem ne_of_distinct_lower_suffix {a b : String} {s1 s2 : List Char}
    (ha : s1 <:+ (pyLower a).data) (hb : s2 <:+ (pyLower b).data)
    (hlen : s1.length = s2.length) (hne : s1 ≠ s2) : a ≠ b := by
  intro hab
  subst hab
  exact hne (suffix_eq_of_length ha hb hlen)

/-- The computed output name always ends in `.jpg`, case-insensitively. -/
theorem jpgOutputName_endswith (env : RenderEnv) (ofn : Option String) :
    pyEndsWith (pyLower (jpgOutputName env ofn)) ".jpg" = true := by
  dsimp only [jpgOutputName]
  split
  · next h => exact h
  · next h =>
      unfold pyEndsWith
      rw [pyLower_append, show pyLower ".jpg" = ".jpg" from by decide, String.data_append]
      exact List.isSuffixOf_iff_suffix.mpr (List.suffix_append _ _)

/-- The lowered data of any string ending in a literal tail has that lowered
tail as a suffix. -/
theorem lower_suffix_of_append (x tail : String) :
    (pyLower tail).data <:+ (pyLower (x ++ tail)).data := by
  rw [pyLower_append, String.data_append]
  exact List.suffix_append _ _

/-- C5: a successful `generate_plantuml_image` call returns the absolute path
of the output inside `jpg_output`, whose name ends with `.jpg`
case-insensitively (appended exactly when the given name does not already end
with it); the output file exists and the intermediate PNG and the temporary
`.puml` file have been deleted. -/
theorem generate_plantuml_image_success (env : RenderEnv)
    (output_filename java_path : Option String) (fs : FSState)
    (p : String) (fs' : FSState)
    (h : generate_plantuml_image env output_filename java_path fs = .ok (p, fs')) :
    p = env.cwd ++ "/" ++ ("jpg_output/" ++ jpgOutputName env output_filename) ∧
    pyEndsWith (pyLower (jpgOutputName env output_filename)) ".jpg" = true ∧
    (∀ given, output_filename = some given →
      (pyEndsWith (pyLower given) ".jpg" = true →
        jpgOutputName env output_filename = given) ∧
      (pyEndsWith (pyLower given) ".jpg" = false →
        jpgOutputName env output_filename = given ++ ".jpg")) ∧
    fsExists ("jpg_output/" ++ jpgOutputName env output_filename) fs' = true ∧
    fsExists ("jpg_output/" ++ env.tempStem ++ ".png") fs' = false ∧
    fsExists (env.tempDir ++ "/" ++ env.tempStem ++ ".puml") fs' = false := by
  have hout : pyEndsWith (pyLower (jpgOutputName env output_filename)) ".jpg" = true :=
    jpgOutputName_endswith env output_filename
  -- inequalities between output, PNG and puml paths, from their distinct tails
  have hjpg_suffix : (".jpg" : String).data <:+
      (pyLower ("jpg_output/" ++ jpgOutputName env output_filename)).data := by
    have h1 : (".jpg" : String).data <:+ (pyLower (jpgOutputName env output_filename)).data := by
      have := hout
      unfold pyEndsWith at this
      exact List.isSuffixOf_iff_suffix.mp this
    rw [pyLower_append, String.data_append]
    exact h1.trans (List.suffix_append _ _)
  have hpng_suffix : (".png" : String).data <:+
      (pyLower ("jpg_output/" ++ env.tempStem ++ ".png")).data := by
    have := lower_suffix_of_append ("jpg_output/" ++ env.tempStem) ".png"
    rwa [show pyLower ".png" = ".png" from by decide] at this
  have hpuml_suffix : ("puml" : String).data <:+
      (pyLower (env.tempDir ++ "/" ++ env.tempStem ++ ".puml")).data := by
    have h1 := lower_suffix_of_append (env.tempDir ++ "/" ++ env.tempStem) ".puml"
    rw [show pyLower ".puml" = ".puml" from by decide] at h1
    exact (List.suffix_append ['.'] ("puml" : String).data).trans h1
  have hne_png : ("jpg_output/" ++ jpgOutputName env output_filename) ≠
      ("jpg_output/" ++ env.tempStem ++ ".png") :=
    ne_of_distinct_lower_suffix hjpg_suffix hpng_suffix (by decide) (by decide)
  have hne_puml : ("jpg_output/" ++ jpgOutputName env output_filename) ≠
      (env.tempDir ++ "/" ++ env.tempStem ++ ".puml") :=
    ne_of_distinct_lower_suffix hjpg_suffix hpuml_suffix (by decide) (by decide)
  have hne_png_puml : ("jpg_output/" ++ env.tempStem ++ ".png") ≠
      (env.tempDir ++ "/" ++ env.tempStem ++ ".puml") :=
    ne_of_distinct_lower_suffix hpng_suffix hpuml_suffix (by decide) (by decide)
  -- naming behaviour, independent of the run
  have hname : ∀ given, output_filename = some given →
      (pyEndsWith (pyLower given) ".jpg" = true →
        jpgOutputName env output_filename = given) ∧
      (pyEndsWith (pyLower given) ".jpg" = false →
        jpgOutputName env output_filename = given ++ ".jpg") := by
    intro given hgiven
    subst hgiven
    constructor
    · intro hyes
      dsimp only [jpgOutputName]
      simp only [Option.getD_some]
      rw [if_pos hyes]
    · intro hno
      dsimp only [jpgOutputName]
      simp only [Option.getD_some]
      rw [if_neg (by rw [hno]; exact Bool.false_ne_true)]
  -- final filesystem facts, for either intermediate state
  have key : ∀ fs2 : FSState,
      fsExists ("jpg_output/" ++ jpgOutputName env output_filename)
        (fsRemove (env.tempDir ++ "/" ++ env.tempStem ++ ".puml")
          (fsRemove ("jpg_output/" ++ env.tempStem ++ ".png")
            (fsAdd ("jpg_output/" ++ jpgOutputName env output_filename) fs2))) = true ∧
      fsExists ("jpg_output/" ++ env.tempStem ++ ".png")
        (fsRemove (env.tempDir ++ "/" ++ env.tempStem ++ ".puml")
          (fsRemove ("jpg_output/" ++ env.tempStem ++ ".png")
            (fsAdd ("jpg_output/" ++ jpgOutputName env output_filename) fs2))) = false ∧
      fsExists (env.tempDir ++ "/" ++ env.tempStem ++ ".puml")
        (fsRemove (env.tempDir ++ "/" ++ env.tempStem ++ ".puml")
          (fsRemove ("jpg_output/" ++ env.tempStem ++ ".png")
            (fsAdd ("jpg_output/" ++ jpgOutputName env output_filename) fs2))) = false := by
    intro fs2
    refine ⟨?_, ?_, ?_⟩
    · rw [fsExists_fsRemove_ne _ hne_puml, fsExists_fsRemove_ne _ hne_png]
      exact fsExists_fsAdd_self _ _
    · rw [fsExists_fsRemove_ne _ hne_png_puml]
      exact fsExists_fsRemove_self _ _
    · exact fsExists_fsRemove_self _ _
  -- extract the success branch
  dsimp only [generate_plantuml_image] at h
  by_cases hjar : env.jarExists = true
  case neg =>
    rw [if_pos hjar] at h
    cases h
  case pos =>
    rw [if_neg (fun hc => hc hjar)] at h
    cases hjava : java_path.orElse (fun _ => env.detectedJava) with
    | none =>
        rw [hjava] at h
        cases h
    | some j =>
        rw [hjava] at h
        by_cases hrc : env.retcode = 0
        case neg =>
          rw [if_pos hrc] at h
          cases h
        case pos =>
          rw [if_neg (fun hc => hc hrc)] at h
          cases hrp : env.rendersPng with
          | true =>
              rw [hrp] at h
              rw [if_pos rfl] at h
              by_cases hpng : fsExists ("jpg_output/" ++ env.tempStem ++ ".png")
                  (fsAdd ("jpg_output/" ++ env.tempStem ++ ".png")
                    (fsAdd (env.tempDir ++ "/" ++ env.tempStem ++ ".puml") fs)) = true
              case neg =>
                rw [if_pos hpng] at h
                cases h
              case pos =>
                rw [if_neg (fun hc => hc hpng)] at h
                injection h with h1
                injection h1 with hp hfs
                subst hp
                subst hfs
                exact ⟨rfl, hout, hname, (key _).1, (key _).2.1, (key _).2.2⟩
          | false =>
              rw [hrp] at h
              rw [if_neg Bool.false_ne_true] at h
              by_cases hpng : fsExists ("jpg_output/" ++ env.tempStem ++ ".png")
                  (fsAdd (env.tempDir ++ "/" ++ env.tempStem ++ ".puml") fs) = true
              case neg =>
                rw [if_pos hpng] at h
                cases h
              case pos =>
                rw [if_neg (fun hc => hc hpng)] at h
                injection h with h1
                injection h1 with hp hfs
                subst hp
                subst hfs
                exact ⟨rfl, hout, hname, (key _).1, (key _).2.1, (key _).2.2⟩


/-- Witness for C5 at a concrete successful run whose given name lacks the
`.jpg` ending. -/
theorem generate_plantuml_image_success_witness :
    "/w/jpg_output/out.PNG.jpg" = sampleRenderEnv.cwd ++ "/" ++
      ("jpg_output/" ++ jpgOutputName sampleRenderEnv (some "out.PNG")) ∧
    pyEndsWith (pyLower (jpgOutputName sampleRenderEnv (some "out.PNG"))) ".jpg" = true ∧
    (∀ given, some "out.PNG" = some given →
      (pyEndsWith (pyLower given) ".jpg" = true →
        jpgOutputName sampleRenderEnv (some "out.PNG") = given) ∧
      (pyEndsWith (pyLower given) ".jpg" = false →
        jpgOutputName sampleRenderEnv (some "out.PNG") = given ++ ".jpg")) ∧
    fsExists ("jpg_output/" ++ jpgOutputName sampleRenderEnv (some "out.PNG"))
      ⟨["jpg_output/out.PNG.jpg"]⟩ = true ∧
    fsExists ("jpg_output/" ++ sampleRenderEnv.tempStem ++ ".png")
      ⟨["jpg_output/out.PNG.jpg"]⟩ = false ∧
    fsExists (sampleRenderEnv.tempDir ++ "/" ++ sampleRenderEnv.tempStem ++ ".puml")
      ⟨["jpg_output/out.PNG.jpg"]⟩ = false :=
  generate_plantuml_image_success sampleRenderEnv (some "out.PNG") none ⟨[]⟩
    "/w/jpg_output/out.PNG.jpg" ⟨["jpg_output/out.PNG.jpg"]⟩ rfl

/-! ### StarUML traversal lemmas (claim C1) -/

/-- The element and relationship tag sets are disjoint. -/
theorem not_isRelNode_of_isElemNode {fields : List (String × Json)}
    (h : isElemNode fields = true) : isRelNode fields = false := by
  unfold isElemNode at h
  unfold isRelNode
  cases hl : jlookup "_type" fields with
  | none => rw [hl] at h
  | some v =>
      rw [hl] at h
      cases v with
      | str t =>
          have hmem : t ∈ elemTags := of_decide_eq_true h
          simp only [elemTags, List.mem_cons, List.not_mem_nil, or_false] at hmem
          rcases hmem with h1 | h1 | h1 <;> subst h1 <;> decide
      | null => cases h
      | bool b => cases h
      | num n => cases h
      | arr items => cases h
      | obj fs => cases h

/-- The entries a node contributes on its own refine the node collector. -/
theorem nodeEntries_forall2 (fields : List (String × Json))
    (own : List ElemEntry × List RelEntry) (h : nodeEntries fields = .ok own) :
    List.Forall₂ (fun e fs => elemEntryOf fs = .ok e) own.1
      (if isElemNode fields then [fields] else []) ∧
    List.Forall₂ (fun r fs => relEntryOf fs = .ok r) own.2
      (if isRelNode fields then [fields] else []) := by
  unfold nodeEntries at h
  by_cases he : isElemNode fields = true
  · rw [if_pos he] at h
    rw [if_pos he, if_neg (by rw [not_isRelNode_of_isElemNode he]; exact Bool.false_ne_true)]
    cases hee : elemEntryOf fields with
    | error e => rw [hee] at h; cases h
    | ok entry =>
        rw [hee] at h
        injection h with h1
        subst h1
        exact ⟨List.Forall₂.cons hee List.Forall₂.nil, List.Forall₂.nil⟩
  · rw [if_neg he] at h
    rw [if_neg he]
    by_cases hr : isRelNode fields = true
    · rw [if_pos hr] at h
      rw [if_pos hr]
      cases hre : relEntryOf fields with
      | error e => rw [hre] at h; cases h
      | ok entry =>
          rw [hre] at h
          injection h with h1
          subst h1
          exact ⟨List.Forall₂.nil, List.Forall₂.cons hre List.Forall₂.nil⟩
    · rw [if_neg hr] at h
      rw [if_neg hr]
      injection h with h1
      subst h1
      exact ⟨List.Forall₂.nil, List.Forall₂.nil⟩

mutual

/-- A successful walk refines the node collector: one element entry per
matched element node and one relationship entry per matched relationship
node, in depth-first order. -/
theorem traverseJson_ok : ∀ (j : Json) (res : List ElemEntry × List RelEntry),
    traverseJson j = .ok res →
    List.Forall₂ (fun e fs => elemEntryOf fs = .ok e) res.1 (collectNodes j).1 ∧
    List.Forall₂ (fun r fs => relEntryOf fs = .ok r) res.2 (collectNodes j).2
  | .obj fields, res, h => by
      simp only [traverseJson] at h
      cases hne : nodeEntries fields with
      | error e => rw [hne] at h; cases h
      | ok own =>
          rw [hne] at h
          cases htf : traverseFields fields with
          | error e => rw [htf] at h; cases h
          | ok rest =>
              rw [htf] at h
              injection h with h1
              subst h1
              have hown := nodeEntries_forall2 fields own hne
              have hrest := traverseFields_ok fields rest htf
              simp only [collectNodes]
              exact ⟨List.rel_append hown.1 hrest.1, List.rel_append hown.2 hrest.2⟩
  | .arr items, res, h => by
      simp only [traverseJson] at h
      simp only [collectNodes]
      exact traverseItems_ok items res h
  | .null, res, h => by
      simp only [traverseJson] at h
      injection h with h1
      subst h1
      exact ⟨List.Forall₂.nil, List.Forall₂.nil⟩
  | .bool b, res, h => by
      simp only [traverseJson] at h
      injection h with h1
      subst h1
      exact ⟨List.Forall₂.nil, List.Forall₂.nil⟩
  | .num n, res, h => by
      simp only [traverseJson] at h
      injection h with h1
      subst h1
      exact ⟨List.Forall₂.nil, List.Forall₂.nil⟩
  | .str s, res, h => by
      simp only [traverseJson] at h
      injection h with h1
      subst h1
      exact ⟨List.Forall₂.nil, List.Forall₂.nil⟩

/-- Walking the values of a dict refines the field collector. -/
theorem traverseFields_ok : ∀ (l : List (String × Json)) (res : List ElemEntry × List RelEntry),
    traverseFields l = .ok res →
    List.Forall₂ (fun e fs => elemEntryOf fs = .ok e) res.1 (collectNodesFields l).1 ∧
    List.Forall₂ (fun r fs => relEntryOf fs = .ok r) res.2 (collectNodesFields l).2
  | [], res, h => by
      simp only [traverseFields] at h
      injection h with h1
      subst h1
      exact ⟨List.Forall₂.nil, List.Forall₂.nil⟩
  | (k, v) :: rest, res, h => by
      simp only [traverseFields] at h
      simp only [collectNodesFields]
      by_cases hd : descendKey k = true
      · rw [if_pos hd] at h
        rw [if_pos hd]
        cases h1 : traverseJson v with
        | error e => rw [h1] at h; cases h
        | ok r1 =>
            rw [h1] at h
            cases h2 : traverseFields rest with
            | error e => rw [h2] at h; cases h
            | ok r2 =>
                rw [h2] at h
                injection h with hh
                subst hh
                have hv := traverseJson_ok v r1 h1
                have hr := traverseFields_ok rest r2 h2
                exact ⟨List.rel_append hv.1 hr.1, List.rel_append hv.2 hr.2⟩
      · rw [if_neg hd] at h
        rw [if_neg hd]
        cases h2 : traverseFields rest with
        | error e => rw [h2] at h; cases h
        | ok r2 =>
            rw [h2] at h
            injection h with hh
            subst hh
            have hr := traverseFields_ok rest r2 h2
            exact ⟨List.rel_append List.Forall₂.nil hr.1, List.rel_append List.Forall₂.nil hr.2⟩

/-- Walking the items of a list refines the item collector. -/
theorem traverseItems_ok : ∀ (l : List Json) (res : List ElemEntry × List RelEntry),
    traverseItems l = .ok res →
    List.Forall₂ (fun e fs => elemEntryOf fs = .ok e) res.1 (collectNodesItems l).1 ∧
    List.Forall₂ (fun r fs => relEntryOf fs = .ok r) res.2 (collectNodesItems l).2
  | [], res, h => by
      simp only [traverseItems] at h
      injection h with h1
      subst h1
      exact ⟨List.Forall₂.nil, List.Forall₂.nil⟩
  | item :: rest, res, h => by
      simp only [traverseItems] at h
      simp only [collectNodesItems]
      cases h1 : traverseJson item with
      | error e => rw [h1] at h; cases h
      | ok r1 =>
          rw [h1] at h
          cases h2 : traverseItems rest with
          | error e => rw [h2] at h; cases h
          | ok r2 =>
              rw [h2] at h
              injection h with hh
              subst hh
              have hv := traverseJson_ok item r1 h1
              have hr := traverseItems_ok rest r2 h2
              exact ⟨List.rel_append hv.1 hr.1, List.rel_append hv.2 hr.2⟩

end

/-- C1 (amended): whenever the recursive walk completes without raising, the
returned structure contains exactly one element entry for each visited dict
node whose `_type` is an element tag and exactly one relationship entry for
each visited dict node whose `_type` is a relationship tag, in depth-first
order, the walk descending into every dict value except the keys `_type`,
`_id`, `_parent` and into every list item; nodes with any other `_type`
contribute nothing. -/
theorem extract_uml_elements_walk (staruml_data : Json) (out : UmlExtraction)
    (h : extract_uml_elements staruml_data = .ok out) :
    List.Forall₂ (fun e fs => elemEntryOf fs = .ok e)
      out.elements (collectNodes staruml_data).1 ∧
    List.Forall₂ (fun r fs => relEntryOf fs = .ok r)
      out.relationships (collectNodes staruml_data).2 ∧
    out.elements.length = (collectNodes staruml_data).1.length ∧
    out.relationships.length = (collectNodes staruml_data).2.length := by
  unfold extract_uml_elements at h
  cases ht : traverseJson staruml_data with
  | error e => rw [ht] at h; cases h
  | ok res =>
      rw [ht] at h
      injection h with h1
      subst h1
      have hmain := traverseJson_ok staruml_data res ht
      exact ⟨hmain.1, hmain.2, hmain.1.length_eq, hmain.2.length_eq⟩

/-- Counterexample to C1 as stated: on a relationship node whose `source`
value is a number, the walk raises `AttributeError` instead of returning a
structure, so the universally quantified claim fails. -/
theorem extract_uml_elements_raises_on_nondict_source :
    extract_uml_elements
        (Json.obj [("_type", Json.str "UMLAssociation"), ("source", Json.num 5)]) =
      .error "AttributeError: object has no attribute get" := rfl


/-- Witness for C1 at the sample tree. -/
theorem extract_uml_elements_walk_witness :
    List.Forall₂ (fun e fs => elemEntryOf fs = .ok e)
      sampleMdjOut.elements (collectNodes sampleMdj).1 ∧
    List.Forall₂ (fun r fs => relEntryOf fs = .ok r)
      sampleMdjOut.relationships (collectNodes sampleMdj).2 ∧
    sampleMdjOut.elements.length = (collectNodes sampleMdj).1.length ∧
    sampleMdjOut.relationships.length = (collectNodes sampleMdj).2.length :=
  extract_uml_elements_walk sampleMdj sampleMdjOut rfl

end UMLRepo
